import Mathlib

/-!
Verification of the krb5 credential-cache / keytab / principal / ticket core.

This file shallowly embeds the Rust sources of the `krb5` crate
(src/krb5/src/...) into Lean:

* byte streams (`BufReader<File>` positioned over a byte vector) become a
  fixed byte list `data : List Nat` together with a cursor `pos : Nat`;
  `Read::read` into an `n`-byte buffer reads `min n (len - pos)` bytes, and
  the `read_int!`/`read_u8` helpers return `none` when fewer than `n` bytes
  were obtained, exactly as the source returns `Ok(None)`;
* machine integers are `Nat` (unsigned) or `Int` (signed) with explicit
  two's-complement reinterpretation where the source casts;
* `anyhow::Result` becomes `Except Err`; `Option` stays `Option`;
* Rust panics (index out of bounds, checked-subtraction underflow) are the
  distinguished outcome `Err.panicked`;
* the platform-dependent `Endianness::Native` byte order of the V1/V2 file
  formats is an explicit parameter `native : Endianness`.
-/

deriving instance DecidableEq for Except

/-- Byte order, mirroring `nom::number::Endianness` as resolved on a
concrete platform (`Native` resolves to one of the two). -/
inductive Endianness where
  | big
  | little
deriving DecidableEq, Repr

/-- Big-endian value of a byte list. -/
def bytesToNatBE (bs : List Nat) : Nat :=
  bs.foldl (fun a b => a * 256 + b) 0

/-- Value of a byte list under the given byte order. -/
def decodeUInt (e : Endianness) (bs : List Nat) : Nat :=
  match e with
  | .big => bytesToNatBE bs
  | .little => bytesToNatBE bs.reverse

/-- Reinterpret an unsigned `w`-byte value as a two's-complement signed
integer (`iN::from_be_bytes` and friends). -/
def asSigned (w : Nat) (n : Nat) : Int :=
  if n < 2 ^ (8 * w - 1) then (n : Int) else (n : Int) - 2 ^ (8 * w)

/-- Source `Read::read` into an `n`-byte buffer followed by the length check the
`read_int!` macro and `read_u8` perform: full `n` bytes or `none`.  The
cursor advances by the number of bytes actually read. -/
def readExact (data : List Nat) (n pos : Nat) : Option (List Nat) × Nat :=
  if pos + n ≤ data.length then (some ((data.drop pos).take n), pos + n)
  else (none, pos + (data.length - pos))

/-- Source `read_u8`. -/
def readU8 (data : List Nat) (pos : Nat) : Option Nat × Nat :=
  match readExact data 1 pos with
  | (some bs, p) => (some (bytesToNatBE bs), p)
  | (none, p) => (none, p)

/-- Source `read_u16` (from the `read_int!` macro). -/
def readU16 (data : List Nat) (e : Endianness) (pos : Nat) : Option Nat × Nat :=
  match readExact data 2 pos with
  | (some bs, p) => (some (decodeUInt e bs), p)
  | (none, p) => (none, p)

/-- Source `read_u32`. -/
def readU32 (data : List Nat) (e : Endianness) (pos : Nat) : Option Nat × Nat :=
  match readExact data 4 pos with
  | (some bs, p) => (some (decodeUInt e bs), p)
  | (none, p) => (none, p)

/-- Source `read_i16`. -/
def readI16 (data : List Nat) (e : Endianness) (pos : Nat) : Option Int × Nat :=
  match readExact data 2 pos with
  | (some bs, p) => (some (asSigned 2 (decodeUInt e bs)), p)
  | (none, p) => (none, p)

/-- Source `read_i32`. -/
def readI32 (data : List Nat) (e : Endianness) (pos : Nat) : Option Int × Nat :=
  match readExact data 4 pos with
  | (some bs, p) => (some (asSigned 4 (decodeUInt e bs)), p)
  | (none, p) => (none, p)

theorem readExact_some (data : List Nat) (n pos : Nat) (bs : List Nat) (p : Nat)
    (h : readExact data n pos = (some bs, p)) :
    p = pos + n ∧ pos + n ≤ data.length := by
  unfold readExact at h
  split at h
  · exact ⟨(Prod.mk.injEq _ _ _ _ ▸ h).2.symm, by assumption⟩
  · simp at h

theorem readExact_none_iff (data : List Nat) (n pos : Nat) :
    (readExact data n pos).1 = none ↔ data.length < pos + n := by
  unfold readExact
  split <;> simp <;> omega

theorem readI32_some (data : List Nat) (e : Endianness) (pos : Nat) (v : Int) (p : Nat)
    (h : readI32 data e pos = (some v, p)) :
    p = pos + 4 ∧ pos + 4 ≤ data.length := by
  unfold readI32 at h
  rcases hx : readExact data 4 pos with ⟨bs?, p'⟩
  rcases bs? with _ | bs <;> rw [hx] at h <;> simp at h
  · exact readExact_some data 4 pos bs p (by rw [hx, h.2])

theorem readI32_none_iff (data : List Nat) (e : Endianness) (pos : Nat) :
    (readI32 data e pos).1 = none ↔ data.length < pos + 4 := by
  unfold readI32
  rcases hx : readExact data 4 pos with ⟨bs?, p'⟩
  have := readExact_none_iff data 4 pos
  rw [hx] at this
  rcases bs? with _ | bs <;> simp_all

theorem readU32_some (data : List Nat) (e : Endianness) (pos : Nat) (v : Nat) (p : Nat)
    (h : readU32 data e pos = (some v, p)) :
    p = pos + 4 ∧ pos + 4 ≤ data.length := by
  unfold readU32 at h
  rcases hx : readExact data 4 pos with ⟨bs?, p'⟩
  rcases bs? with _ | bs <;> rw [hx] at h <;> simp at h
  · exact readExact_some data 4 pos bs p (by rw [hx, h.2])

theorem readU32_none_iff (data : List Nat) (e : Endianness) (pos : Nat) :
    (readU32 data e pos).1 = none ↔ data.length < pos + 4 := by
  unfold readU32
  rcases hx : readExact data 4 pos with ⟨bs?, p'⟩
  have := readExact_none_iff data 4 pos
  rw [hx] at this
  rcases bs? with _ | bs <;> simp_all

/-! ## Data model (src/krb5/src/principal.rs, credential_cache/credential.rs,
keytab/keytab_entry.rs, crypto) -/

/-- Error outcomes.  Mirrors the `Error` variants reachable from the embedded
code; `panicked` is the distinguished outcome of a Rust panic (index out of
bounds / checked-arithmetic underflow), and `berValueError` collapses all
DER-decoding failures of `der_parser`/`asn1_rs`. -/
inductive Err where
  | ccFormat
  | ccBadVno
  | ktFormat
  | ktBadVno
  | parseMalformed
  | noDefRealm
  | invalidUtf8
  | berValueError
  | panicked
deriving DecidableEq, Repr

/-- Source `NameType(pub i32)`. -/
structure NameType where
  val : Int
deriving DecidableEq, Repr

def NameType.UNKNOWN : NameType := ⟨0⟩

def NameType.PRINCIPAL : NameType := ⟨1⟩

def NameType.SRV_INST : NameType := ⟨2⟩

def NameType.ENTERPRISE_PRINCIPAL : NameType := ⟨10⟩

def NameType.WELLKNOWN : NameType := ⟨11⟩

/-- Source `Principal { realm: Vec<u8>, components: Vec<Vec<u8>>, name_type }`. -/
structure Principal where
  realm : List Nat
  components : List (List Nat)
  name_type : NameType
deriving DecidableEq, Repr

/-- Source `Keyblock { enctype: Enctype(i32), contents: Vec<u8> }`. -/
structure Keyblock where
  enctype : Int
  contents : List Nat
deriving DecidableEq, Repr

/-- Source `TicketTimes` (authtime/starttime `i32`, endtime/renew_till `u32`). -/
structure TicketTimes where
  authtime : Int
  starttime : Int
  endtime : Nat
  renew_till : Nat
deriving DecidableEq, Repr

/-- Source `Address { addrtype: u16, contents: Vec<u8> }`. -/
structure Address where
  addrtype : Nat
  contents : List Nat
deriving DecidableEq, Repr

/-- Source `AuthData { ad_type: u16, contents: Vec<u8> }`. -/
structure AuthData where
  ad_type : Nat
  contents : List Nat
deriving DecidableEq, Repr

/-- Source `Credential` (credential_cache/credential.rs). -/
structure Credential where
  client : Principal
  server : Principal
  keyblock : Keyblock
  times : TicketTimes
  is_skey : Bool
  ticket_flags : Int
  addresses : List Address
  ticket : List Nat
  second_ticket : List Nat
  authdata : List AuthData
deriving DecidableEq, Repr

/-- Source `KeytabEntry { principal, timestamp: u32, vno: u32, key }`. -/
structure KeytabEntry where
  principal : Principal
  timestamp : Nat
  vno : Nat
  key : Keyblock
deriving DecidableEq, Repr

/-- Source `"krbtgt"` as bytes (`KRB5_TGS_NAME`). -/
def KRB5_TGS_NAME : List Nat := [107, 114, 98, 116, 103, 116]

/-- Source `"WELLKNOWN"` as bytes (`KRB5_WELLKNOWN_NAMESTR`). -/
def KRB5_WELLKNOWN_NAMESTR : List Nat := [87, 69, 76, 76, 75, 78, 79, 87, 78]

/-- Source `"X-CACHECONF:"` as bytes (`CONF_REALM`). -/
def CONF_REALM : List Nat := [88, 45, 67, 65, 67, 72, 69, 67, 79, 78, 70, 58]

/-- Source `"krb5_ccache_conf_data"` as bytes (`CONF_NAME`). -/
def CONF_NAME : List Nat :=
  [107, 114, 98, 53, 95, 99, 99, 97, 99, 104, 101, 95, 99, 111, 110, 102, 95, 100, 97, 116, 97]

/-- Source `Credential::is_removed`: `endtime == 0 && authtime == -1`. -/
def Credential.is_removed (c : Credential) : Bool :=
  c.times.endtime = 0 && c.times.authtime = -1

/-- Source `Credential::is_config`: server realm is `X-CACHECONF:` and the first
component is `krb5_ccache_conf_data`. -/
def Credential.is_config (c : Credential) : Bool :=
  if c.server.realm ≠ CONF_REALM then false
  else
    match c.server.components.head? with
    | some component => component = CONF_NAME
    | none => false

/-- Source `Credential::get_config`.  The source indexes `components[1]` without a
bounds check after `is_config`, which only inspects `components.first()`;
the out-of-bounds index is the `Err.panicked` outcome.  On the success path
the third component is optional. -/
def Credential.get_config (c : Credential) :
    Except Err (Option (List Nat × Option (List Nat) × List Nat)) :=
  if ¬ c.is_config then .ok none
  else
    match c.server.components.get? 1 with
    | none => .error .panicked
    | some key =>
      let principal := if c.server.components.length > 2 then c.server.components.get? 2 else none
      .ok (some (key, principal, c.ticket))

/-- Source `Principal::is_local_tgt(realm)`: exactly two components, realm and
second component equal the given realm, first component `krbtgt`. -/
def Principal.is_local_tgt (p : Principal) (realm : List Nat) : Bool :=
  match p.components with
  | [c0, c1] => p.realm = realm && c0 = KRB5_TGS_NAME && c1 = realm
  | _ => false

/-! ## Context (src/krb5/src/context.rs) -/

/-- Source `OsContext` (fields used by the embedded code; `os_flags` is the 32-bit
pattern of the `Flags` value). -/
structure OsContext where
  time_offset : Int
  usec_offset : Int
  os_flags : Nat
deriving DecidableEq, Repr

/-- Source `KRB5_OS_TOFFSET_VALID = 1`. -/
def KRB5_OS_TOFFSET_VALID : Nat := 1

/-- Source `KRB5_OS_TOFFSET_TIME = 2`. -/
def KRB5_OS_TOFFSET_TIME : Nat := 2

/-- Source `OsContext::time_offset_valid`: `self.os_flags & KRB5_OS_TOFFSET_VALID > 1`
(source line 246, verbatim: the masked value is compared against 1, not 0). -/
def OsContext.time_offset_valid (os : OsContext) : Bool :=
  os.os_flags &&& KRB5_OS_TOFFSET_VALID > 1

/-- Source `OsContext::set_time_offset_valid`:
`os_flags = os_flags & !KRB5_OS_TOFFSET_TIME | KRB5_OS_TOFFSET_VALID`
(`!2` on `i32` keeps all bits except bit 1). -/
def OsContext.set_time_offset_valid (os : OsContext) : OsContext :=
  { os with os_flags := os.os_flags &&& (2 ^ 32 - 1 - KRB5_OS_TOFFSET_TIME) ||| KRB5_OS_TOFFSET_VALID }

/-- The slice of `Context` the embedded code reads: `library_options` as a
32-bit pattern, the `OsContext`, and the lazily populated `default_realm`. -/
structure Context where
  library_options : Nat
  os_context : OsContext
  default_realm : List Nat
deriving DecidableEq, Repr

/-- Source `KRB5_LIBOPT_SYNC_KDCTIME = 0x0001`. -/
def KRB5_LIBOPT_SYNC_KDCTIME : Nat := 1

/-- Source `Context::sync_kdctime`. -/
def Context.sync_kdctime (c : Context) : Bool :=
  c.library_options &&& KRB5_LIBOPT_SYNC_KDCTIME > 0

/-- Source `Context::get_default_realm`: returns the stored realm when non-empty,
else `KRB5_CONFIG_NODEFREALM` (the hostrealm fallback is unimplemented in
the source). -/
def Context.get_default_realm (c : Context) : Except Err (List Nat) :=
  if c.default_realm ≠ [] then .ok c.default_realm else .error .noDefRealm

/-! ## FILE credential cache reader (src/krb5/src/credential_cache/file_data.rs) -/

/-- Ccache `FileFormatVersion` (1 through 4). -/
inductive CCVersion where
  | v1
  | v2
  | v3
  | v4
deriving DecidableEq, Repr

/-- Source `FileData::endianness`: V1/V2 native, V3/V4 big-endian. -/
def CC.endianness (native : Endianness) : CCVersion → Endianness
  | .v1 | .v2 => native
  | .v3 | .v4 => .big

/-- Source `FileFormatVersion::try_from(u8)`. -/
def CC.versionOfByte (b : Nat) : Except Err CCVersion :=
  match b with
  | 1 => .ok .v1
  | 2 => .ok .v2
  | 3 => .ok .v3
  | 4 => .ok .v4
  | _ => .error .ccBadVno

/-- Source `FileData::read_version`: first byte must be 5 (else `CC_FORMAT`), the
second byte is the version number. -/
def CC.read_version (data : List Nat) (pos : Nat) : Except Err (CCVersion × Nat) :=
  match readU8 data pos with
  | (some 5, p₁) =>
    match readU8 data p₁ with
    | (none, _) => .error .ccFormat
    | (some b, p₂) =>
      match CC.versionOfByte b with
      | .error err => .error err
      | .ok ver => .ok (ver, p₂)
  | _ => .error .ccFormat

/-- The `while header_size > 0` field loop of `FileData::read_header`. -/
def CC.readHeaderFields (data : List Nat) (e : Endianness) (ctx : Context) (pos : Nat)
    (header_size : Nat) : Except Err (Context × Nat) :=
  if _h0 : header_size = 0 then .ok (ctx, pos)
  else if header_size < 4 then .error .ccFormat
  else
    match readU16 data e pos with
    | (none, _) => .error .ccFormat
    | (some tag, p₁) =>
      match readU16 data e p₁ with
      | (none, _) => .error .ccFormat
      | (some field_size, p₂) =>
        if field_size ≤ header_size - 4 then
          if tag = 1 then
            if field_size ≠ 8 then .error .ccFormat
            else
              match readI32 data e p₂ with
              | (none, _) => .error .ccFormat
              | (some time_offset, p₃) =>
                match readI32 data e p₃ with
                | (none, _) => .error .ccFormat
                | (some usec_offset, p₄) =>
                  let ctx' :=
                    if ctx.sync_kdctime ∧ ¬ ctx.os_context.time_offset_valid then
                      { ctx with
                        os_context :=
                          OsContext.set_time_offset_valid
                            { ctx.os_context with
                              time_offset := time_offset, usec_offset := usec_offset } }
                    else ctx
                  CC.readHeaderFields data e ctx' p₄ (header_size - (4 + field_size))
          else CC.readHeaderFields data e ctx (p₂ + field_size) (header_size - (4 + field_size))
        else .error .ccFormat
termination_by header_size
decreasing_by
  all_goals omega

/-- Source `FileData::read_header` (V4 only): 16-bit total length, then tag/length
fields; tag 1 (`FCC_TAG_DELTATIME`, length exactly 8) carries
`(time_offset, usec_offset)`, installed when `sync_kdctime` is set and the
context's offset is not yet valid. -/
def CC.read_header (data : List Nat) (e : Endianness) (ctx : Context) (pos : Nat) :
    Except Err (Context × Nat) :=
  match readU16 data e pos with
  | (none, _) => .error .ccFormat
  | (some header_size, p₁) => CC.readHeaderFields data e ctx p₁ header_size

/-- Source `FileData::read_data`: 32-bit length then that many bytes; a missing
length is `CC_FORMAT`, a short value is `none`. -/
def CC.read_data (data : List Nat) (e : Endianness) (pos : Nat) :
    Except Err (Option (List Nat) × Nat) :=
  match readU32 data e pos with
  | (none, _) => .error .ccFormat
  | (some size, p₁) =>
    match readExact data size p₁ with
    | (some buf, p₂) => .ok (some buf, p₂)
    | (none, p₂) => .ok (none, p₂)

/-- The component loop of `FileData::read_principal`: each of `count`
components is `read_data(..).ok_or(KRB5_CC_FORMAT)`. -/
def CC.readComponents (data : List Nat) (e : Endianness) :
    Nat → Nat → Except Err (List (List Nat) × Nat)
  | 0, pos => .ok ([], pos)
  | n + 1, pos =>
    match CC.read_data data e pos with
    | .error err => .error err
    | .ok (none, _) => .error .ccFormat
    | .ok (some c, p₁) =>
      match CC.readComponents data e n p₁ with
      | .error err => .error err
      | .ok (cs, p₂) => .ok (c :: cs, p₂)

/-- Tail of `FileData::read_principal` after the name type: component count
(decremented in V1 — the source's unchecked `component_count -= 1` on `u32`
is the `panicked` outcome when the field is 0), realm, components. -/
def CC.readPrincipalBody (data : List Nat) (native : Endianness) (ver : CCVersion)
    (nt : NameType) (pos : Nat) : Except Err (Option Principal × Nat) :=
  let e := CC.endianness native ver
  match readU32 data e pos with
  | (none, _) => .error .ccFormat
  | (some count0, p₁) =>
    match (if ver = CCVersion.v1 then (if count0 = 0 then none else some (count0 - 1))
           else some count0) with
    | none => .error .panicked
    | some count =>
      match CC.read_data data e p₁ with
      | .error err => .error err
      | .ok (none, _) => .error .ccFormat
      | .ok (some realm, p₂) =>
        match CC.readComponents data e count p₂ with
        | .error err => .error err
        | .ok (components, p₃) => .ok (some (Principal.mk realm components nt), p₃)

/-- Source `FileData::read_principal`: name type (32 bits, omitted in V1 where it
defaults to `UNKNOWN`; end-of-stream here yields `Ok(None)`), then count,
realm and components. -/
def CC.read_principal (data : List Nat) (native : Endianness) (ver : CCVersion) (pos : Nat) :
    Except Err (Option Principal × Nat) :=
  if ver = CCVersion.v1 then CC.readPrincipalBody data native ver NameType.UNKNOWN pos
  else
    match readI32 data (CC.endianness native ver) pos with
    | (none, p₁) => .ok (none, p₁)
    | (some nt, p₁) => CC.readPrincipalBody data native ver (NameType.mk nt) p₁

/-- Source `FileData::read_keyblock`: 16-bit enctype (read twice in V3, the second
value ignored) then `data`. -/
def CC.read_keyblock (data : List Nat) (native : Endianness) (ver : CCVersion) (pos : Nat) :
    Except Err (Keyblock × Nat) :=
  let e := CC.endianness native ver
  match readU16 data e pos with
  | (none, _) => .error .ccFormat
  | (some et, p₁) =>
    match (if ver = CCVersion.v3 then
             match readU16 data e p₁ with
             | (none, _) => none
             | (some _, p₂) => some p₂
           else some p₁) with
    | none => .error .ccFormat
    | some p₂ =>
      match CC.read_data data e p₂ with
      | .error err => .error err
      | .ok (none, _) => .error .ccFormat
      | .ok (some contents, p₃) => .ok (Keyblock.mk (et : Int) contents, p₃)

/-- Source `FileData::read_ticket_times`. -/
def CC.read_ticket_times (data : List Nat) (e : Endianness) (pos : Nat) :
    Except Err (TicketTimes × Nat) :=
  match readI32 data e pos with
  | (none, _) => .error .ccFormat
  | (some authtime, p₁) =>
    match readI32 data e p₁ with
    | (none, _) => .error .ccFormat
    | (some starttime, p₂) =>
      match readU32 data e p₂ with
      | (none, _) => .error .ccFormat
      | (some endtime, p₃) =>
        match readU32 data e p₃ with
        | (none, _) => .error .ccFormat
        | (some renew_till, p₄) => .ok (TicketTimes.mk authtime starttime endtime renew_till, p₄)

/-- The address loop of `FileData::read_addresses`. -/
def CC.readAddressList (data : List Nat) (e : Endianness) :
    Nat → Nat → Except Err (List Address × Nat)
  | 0, pos => .ok ([], pos)
  | n + 1, pos =>
    match readU16 data e pos with
    | (none, _) => .error .ccFormat
    | (some addrtype, p₁) =>
      match CC.read_data data e p₁ with
      | .error err => .error err
      | .ok (none, _) => .error .ccFormat
      | .ok (some contents, p₂) =>
        match CC.readAddressList data e n p₂ with
        | .error err => .error err
        | .ok (rest, p₃) => .ok (Address.mk addrtype contents :: rest, p₃)

/-- Source `FileData::read_addresses`: 32-bit count then that many addresses. -/
def CC.read_addresses (data : List Nat) (e : Endianness) (pos : Nat) :
    Except Err (List Address × Nat) :=
  match readU32 data e pos with
  | (none, _) => .error .ccFormat
  | (some count, p₁) => CC.readAddressList data e count p₁

/-- The authdata loop of `FileData::read_authdata`. -/
def CC.readAuthDataList (data : List Nat) (e : Endianness) :
    Nat → Nat → Except Err (List AuthData × Nat)
  | 0, pos => .ok ([], pos)
  | n + 1, pos =>
    match readU16 data e pos with
    | (none, _) => .error .ccFormat
    | (some ad_type, p₁) =>
      match CC.read_data data e p₁ with
      | .error err => .error err
      | .ok (none, _) => .error .ccFormat
      | .ok (some contents, p₂) =>
        match CC.readAuthDataList data e n p₂ with
        | .error err => .error err
        | .ok (rest, p₃) => .ok (AuthData.mk ad_type contents :: rest, p₃)

/-- Source `FileData::read_authdata`: 32-bit count then that many elements. -/
def CC.read_authdata (data : List Nat) (e : Endianness) (pos : Nat) :
    Except Err (List AuthData × Nat) :=
  match readU32 data e pos with
  | (none, _) => .error .ccFormat
  | (some count, p₁) => CC.readAuthDataList data e count p₁

/-- Source `FileData::read_credential`: client and server principals (an
end-of-stream `None` from either ends the credential sequence cleanly),
keyblock, times, `is_skey`, flags, addresses, authdata, ticket and second
ticket. -/
def CC.read_credential (data : List Nat) (native : Endianness) (ver : CCVersion) (pos : Nat) :
    Except Err (Option Credential × Nat) :=
  let e := CC.endianness native ver
  match CC.read_principal data native ver pos with
  | .error err => .error err
  | .ok (none, p) => .ok (none, p)
  | .ok (some client, p₁) =>
    match CC.read_principal data native ver p₁ with
    | .error err => .error err
    | .ok (none, p) => .ok (none, p)
    | .ok (some server, p₂) =>
      match CC.read_keyblock data native ver p₂ with
      | .error err => .error err
      | .ok (keyblock, p₃) =>
        match CC.read_ticket_times data e p₃ with
        | .error err => .error err
        | .ok (times, p₄) =>
          match readU8 data p₄ with
          | (none, _) => .error .ccFormat
          | (some skey, p₅) =>
            match readI32 data e p₅ with
            | (none, _) => .error .ccFormat
            | (some ticket_flags, p₆) =>
              match CC.read_addresses data e p₆ with
              | .error err => .error err
              | .ok (addresses, p₇) =>
                match CC.read_authdata data e p₇ with
                | .error err => .error err
                | .ok (authdata, p₈) =>
                  match CC.read_data data e p₈ with
                  | .error err => .error err
                  | .ok (none, _) => .error .ccFormat
                  | .ok (some ticket, p₉) =>
                    match CC.read_data data e p₉ with
                    | .error err => .error err
                    | .ok (none, _) => .error .ccFormat
                    | .ok (some second_ticket, p₁₀) =>
                      .ok (some (Credential.mk client server keyblock times (skey > 0)
                        ticket_flags addresses ticket second_ticket authdata), p₁₀)

/-- Source `FileData::read_up_to_principal`: version, V4 header, default principal. -/
def CC.read_up_to_principal (data : List Nat) (native : Endianness) (ctx : Context) :
    Except Err (CCVersion × Context × Option Principal × Nat) :=
  match CC.read_version data 0 with
  | .error err => .error err
  | .ok (ver, p₁) =>
    match (if ver = CCVersion.v4 then CC.read_header data (CC.endianness native ver) ctx p₁
           else .ok (ctx, p₁)) with
    | .error err => .error err
    | .ok (ctx', p₂) =>
      match CC.read_principal data native ver p₂ with
      | .error err => .error err
      | .ok (principal, p₃) => .ok (ver, ctx', principal, p₃)

/-! ## FILE keytab reader (src/krb5/src/keytab/file_data.rs) -/

/-- Keytab `FileFormatVersion` (1 or 2). -/
inductive KTVersion where
  | v1
  | v2
deriving DecidableEq, Repr

/-- Keytab `FileData::endianness`: V1 native, V2 big-endian. -/
def KT.endianness (native : Endianness) : KTVersion → Endianness
  | .v1 => native
  | .v2 => .big

/-- Keytab `FileData::read_version`: first byte 5 and version byte 1 or 2,
anything else is `KRB5_KEYTAB_BADVNO`. -/
def KT.read_version (data : List Nat) (pos : Nat) : Except Err (KTVersion × Nat) :=
  match readU8 data pos with
  | (some 5, p₁) =>
    match readU8 data p₁ with
    | (none, _) => .error .ktBadVno
    | (some 1, p₂) => .ok (.v1, p₂)
    | (some 2, p₂) => .ok (.v2, p₂)
    | (some _, _) => .error .ktBadVno
  | _ => .error .ktBadVno

/-- Keytab `FileData::read_data`: 16-bit length, which must be positive
(zero or end-of-stream yields `None`), then that many bytes. -/
def KT.read_data (data : List Nat) (e : Endianness) (pos : Nat) :
    Option (List Nat) × Nat :=
  match readU16 data e pos with
  | (none, p) => (none, p)
  | (some size, p₁) =>
    if size > 0 then
      match readExact data size p₁ with
      | (some buf, p₂) => (some buf, p₂)
      | (none, p₂) => (none, p₂)
    else (none, p₁)

/-- The component loop of the keytab `FileData::read_principal`. -/
def KT.readComponents (data : List Nat) (e : Endianness) :
    Nat → Nat → Option (List (List Nat)) × Nat
  | 0, pos => (some [], pos)
  | n + 1, pos =>
    match KT.read_data data e pos with
    | (none, p) => (none, p)
    | (some c, p₁) =>
      match KT.readComponents data e n p₁ with
      | (none, p) => (none, p)
      | (some cs, p₂) => (some (c :: cs), p₂)

/-- Keytab `FileData::read_principal`: 16-bit component count (in V1 it
includes the realm and is accepted only when `count > 1`, then
decremented; in V2 only when `count > 0`), realm, components, and in V2 a
trailing 32-bit name type (V1 uses `UNKNOWN`). -/
def KT.read_principal (data : List Nat) (native : Endianness) (ver : KTVersion) (pos : Nat) :
    Option Principal × Nat :=
  let e := KT.endianness native ver
  match readU16 data e pos with
  | (none, p) => (none, p)
  | (some count0, p₁) =>
    match (match ver with
           | KTVersion.v1 => if count0 > 1 then some (count0 - 1) else none
           | KTVersion.v2 => if count0 > 0 then some count0 else none) with
    | none => (none, p₁)
    | some count =>
      match KT.read_data data e p₁ with
      | (none, p) => (none, p)
      | (some realm, p₂) =>
        match KT.readComponents data e count p₂ with
        | (none, p) => (none, p)
        | (some components, p₃) =>
          match ver with
          | KTVersion.v1 => (some (Principal.mk realm components NameType.UNKNOWN), p₃)
          | KTVersion.v2 =>
            match readI32 data e p₃ with
            | (none, p) => (none, p)
            | (some nt, p₄) => (some (Principal.mk realm components (NameType.mk nt)), p₄)

/-- Keytab `FileData::read_keyblock`: 16-bit signed enctype then `data`. -/
def KT.read_keyblock (data : List Nat) (native : Endianness) (ver : KTVersion) (pos : Nat) :
    Option Keyblock × Nat :=
  let e := KT.endianness native ver
  match readI16 data e pos with
  | (none, p) => (none, p)
  | (some et, p₁) =>
    match KT.read_data data e p₁ with
    | (none, p) => (none, p)
    | (some contents, p₂) => (some (Keyblock.mk et contents), p₂)

/-- Keytab `FileData::read_entry`: a signed 32-bit record size — positive is
a live entry (decode, then seek to `start + size`; if at least 4 bytes
remain within the record a nonzero 32-bit vno overrides the 8-bit one),
negative is a hole to skip (`i32::MIN` is `KT_FORMAT`), zero or
end-of-stream ends iteration.  Mid-entry end-of-stream also ends iteration
with `Ok(None)`. -/
def KT.read_entry (data : List Nat) (native : Endianness) (ver : KTVersion) (pos : Nat) :
    Except Err (Option KeytabEntry × Nat) :=
  let e := KT.endianness native ver
  match h : readI32 data e pos with
  | (none, p) => .ok (none, p)
  | (some size, p₁) =>
    if h1 : 0 < size then
      match KT.read_principal data native ver p₁ with
      | (none, p) => .ok (none, p)
      | (some principal, p₂) =>
        match readU32 data e p₂ with
        | (none, p) => .ok (none, p)
        | (some timestamp, p₃) =>
          match readU8 data p₃ with
          | (none, p) => .ok (none, p)
          | (some vno8, p₄) =>
            match KT.read_keyblock data native ver p₄ with
            | (none, p) => .ok (none, p)
            | (some key, p₅) =>
              if p₅ - p₁ + 4 ≤ size.toNat then
                match readU32 data e p₅ with
                | (none, p) => .ok (none, p)
                | (some vno32, _) =>
                  .ok (some (KeytabEntry.mk principal timestamp
                        (if vno32 ≠ 0 then vno32 else vno8) key), p₁ + size.toNat)
              else .ok (some (KeytabEntry.mk principal timestamp vno8 key), p₁ + size.toNat)
    else if h2 : size < 0 then
      if size = -(2 ^ 31) then .error .ktFormat
      else KT.read_entry data native ver (p₁ + (-size).toNat)
    else .ok (none, p₁)
termination_by data.length - pos
decreasing_by
  obtain ⟨hp, hle⟩ := readI32_some data (KT.endianness native ver) pos size p₁ h
  omega

/-! ## Principal parsing (src/krb5/src/principal.rs)

`parse_name` operates on a Rust `&str`.  We embed names as their UTF-8
bytes (`List Nat`); the separators searched (`@` = 64, `/` = 47, `\` = 92)
are ASCII, and in UTF-8 an ASCII byte occurs exactly at the positions of
the corresponding character, so byte-level search and split coincide with
the source's `char`-level search on every valid UTF-8 input.
`String::from_utf8` becomes an explicit UTF-8 validity check. -/

/-- Index of the first occurrence of byte `b` (Rust `str::find`). -/
def firstIdx (b : Nat) : List Nat → Option Nat
  | [] => none
  | x :: xs => if x = b then some 0 else (firstIdx b xs).map (· + 1)

/-- Whether a byte is a UTF-8 continuation byte (`0x80..=0xBF`). -/
def utf8Cont (b : Nat) : Bool := 128 ≤ b && b ≤ 191

/-- The UTF-8 validity predicate of `std::str::from_utf8`: the standard
table (RFC 3629) excluding overlong forms, surrogates and values above
`U+10FFFF`. -/
def utf8Valid : List Nat → Bool
  | [] => true
  | b :: rest =>
    if b ≤ 127 then utf8Valid rest
    else if 194 ≤ b && b ≤ 223 then
      match rest with
      | c1 :: r => utf8Cont c1 && utf8Valid r
      | [] => false
    else if b = 224 then
      match rest with
      | c1 :: c2 :: r => (160 ≤ c1 && c1 ≤ 191) && utf8Cont c2 && utf8Valid r
      | _ => false
    else if (225 ≤ b && b ≤ 236) || b = 238 || b = 239 then
      match rest with
      | c1 :: c2 :: r => utf8Cont c1 && utf8Cont c2 && utf8Valid r
      | _ => false
    else if b = 237 then
      match rest with
      | c1 :: c2 :: r => (128 ≤ c1 && c1 ≤ 159) && utf8Cont c2 && utf8Valid r
      | _ => false
    else if b = 240 then
      match rest with
      | c1 :: c2 :: c3 :: r => (144 ≤ c1 && c1 ≤ 191) && utf8Cont c2 && utf8Cont c3 && utf8Valid r
      | _ => false
    else if 241 ≤ b && b ≤ 243 then
      match rest with
      | c1 :: c2 :: c3 :: r => utf8Cont c1 && utf8Cont c2 && utf8Cont c3 && utf8Valid r
      | _ => false
    else if b = 244 then
      match rest with
      | c1 :: c2 :: c3 :: r => (128 ≤ c1 && c1 ≤ 143) && utf8Cont c2 && utf8Cont c3 && utf8Valid r
      | _ => false
    else false

/-- ASCII lower-casing of one byte (`u8::to_ascii_lowercase`). -/
def asciiLower (b : Nat) : Nat := if 65 ≤ b ∧ b ≤ 90 then b + 32 else b

/-- Source `eq_ignore_ascii_case` on byte strings: same length and bytes equal up
to ASCII case, i.e. equality after ASCII lower-casing. -/
def eqIgnoreAsciiCase (l1 l2 : List Nat) : Bool :=
  l1.map asciiLower == l2.map asciiLower

def Principal.PARSE_NO_REALM : Nat := 0x1

def Principal.PARSE_REQUIRE_REALM : Nat := 0x2

def Principal.PARSE_ENTERPRISE : Nat := 0x4

def Principal.PARSE_IGNORE_REALM : Nat := 0x8

def Principal.PARSE_NO_DEF_REALM : Nat := 0x10

def Principal.UNPARSE_SHORT : Nat := 0x1

def Principal.UNPARSE_NO_REALM : Nat := 0x2

def Principal.COMPARE_IGNORE_REALM : Nat := 1

def Principal.COMPARE_ENTERPRISE : Nat := 2

def Principal.COMPARE_CASEFOLD : Nat := 4

def Principal.COMPARE_UTF8 : Nat := 8

/-- Source `Principal::infer_principal_type`: two components starting with
`krbtgt` is `SRV_INST`; at least two starting with `WELLKNOWN` is
`WELLKNOWN`; otherwise `PRINCIPAL`. -/
def Principal.infer_principal_type (components : List (List Nat)) : NameType :=
  if components.length = 2 ∧ components.head? = some KRB5_TGS_NAME then NameType.SRV_INST
  else if components.length ≥ 2 ∧ components.head? = some KRB5_WELLKNOWN_NAMESTR then
    NameType.WELLKNOWN
  else NameType.PRINCIPAL

/-- The `find_realm_from` computation of `Principal::parse_name`: for
enterprise names the realm separator is searched only after the first
`@`. -/
def Principal.findRealmFrom (name : List Nat) (flags : Nat) : Nat :=
  if flags &&& Principal.PARSE_ENTERPRISE != 0 then
    match firstIdx 64 name with
    | some i => i + 1
    | none => 0
  else 0

/-- The `(components, realm)` split of `Principal::parse_name`: the name is
split at the first `@` at or after `find_realm_from`. -/
def Principal.splitRealm (name : List Nat) (flags : Nat) : List Nat × Option (List Nat) :=
  match firstIdx 64 (name.drop (Principal.findRealmFrom name flags)) with
  | none => (name, none)
  | some i =>
    (name.take (Principal.findRealmFrom name flags + i),
     some (name.drop (Principal.findRealmFrom name flags + i + 1)))

/-- Source `Principal::parse_name`. -/
def Principal.parse_name (ctx : Context) (name : List Nat) (flags : Nat) :
    Except Err Principal :=
  if name.getLast? = some 92 then .error .parseMalformed
  else
    let enterprise : Bool := flags &&& Principal.PARSE_ENTERPRISE != 0
    let require_realm : Bool := flags &&& Principal.PARSE_REQUIRE_REALM != 0
    let no_realm : Bool := flags &&& Principal.PARSE_NO_REALM != 0
    let ignore_realm : Bool := flags &&& Principal.PARSE_IGNORE_REALM != 0
    let no_def_realm : Bool := flags &&& Principal.PARSE_NO_DEF_REALM != 0
    let split : List Nat × Option (List Nat) := Principal.splitRealm name flags
    let components := if enterprise then [split.1] else split.1.splitOn 47
    let realmRes : Except Err (List Nat) :=
      match split.2 with
      | some realm =>
        if no_realm || (!enterprise && realm.contains 47) || realm.contains 64 then
          .error .parseMalformed
        else if ignore_realm then .ok [] else .ok realm
      | none =>
        if require_realm then .error .parseMalformed
        else if no_realm || ignore_realm || no_def_realm then .ok []
        else ctx.get_default_realm
    match realmRes with
    | .error err => .error err
    | .ok realm =>
      let name_type :=
        if enterprise then NameType.ENTERPRISE_PRINCIPAL
        else Principal.infer_principal_type components
      .ok (Principal.mk realm components name_type)

/-- Source `Principal::compare_realm_with_flags`. -/
def Principal.compare_realm_with_flags (realm_1 realm_2 : List Nat) (flags : Nat) : Bool :=
  if flags &&& Principal.COMPARE_CASEFOLD ≠ 0 then eqIgnoreAsciiCase realm_1 realm_2
  else realm_1 == realm_2

/-- Source `Principal::unparse_name`: with `SHORT`, a realm equal to the default
realm behaves as `NO_REALM`; components joined by `/`, then (unless
`NO_REALM`) `@` and the realm; the result must be valid UTF-8
(`String::from_utf8`). -/
def Principal.unparse_name (p : Principal) (ctx : Context) (flags : Nat) :
    Except Err (List Nat) :=
  match (if flags &&& Principal.UNPARSE_SHORT != 0 then
           match ctx.get_default_realm with
           | .error err => .error err
           | .ok default_realm =>
             .ok (if Principal.compare_realm_with_flags default_realm p.realm 0 then
                    flags ||| Principal.UNPARSE_NO_REALM
                  else flags)
         else .ok flags : Except Err Nat) with
  | .error err => .error err
  | .ok flags2 =>
    let joined := [(47 : Nat)].intercalate p.components
    let named := if flags2 &&& Principal.UNPARSE_NO_REALM = 0 then joined ++ [64] ++ p.realm
                 else joined
    if utf8Valid named then .ok named else .error .invalidUtf8

/-- Source `Principal::upn_to_principal`: unparse without realm, reparse with
default flags. -/
def Principal.upn_to_principal (p : Principal) (ctx : Context) : Except Err Principal :=
  match p.unparse_name ctx Principal.UNPARSE_NO_REALM with
  | .error err => .error err
  | .ok unparsed => Principal.parse_name ctx unparsed 0

/-- The component loop of `Principal::compare_with_flags`; with both
`CASEFOLD` and `UTF8` the components go through `String::from_utf8`
(which can fail) before the same ASCII-case-insensitive comparison
(`str::eq_ignore_ascii_case` compares the underlying bytes). -/
def Principal.compareComponents :
    List (List Nat) → List (List Nat) → Bool → Bool → Except Err Bool
  | c1 :: r1, c2 :: r2, casefold, utf8 =>
    if casefold then
      if utf8 then
        if utf8Valid c1 && utf8Valid c2 then
          if eqIgnoreAsciiCase c1 c2 then Principal.compareComponents r1 r2 casefold utf8
          else .ok false
        else .error .invalidUtf8
      else
        if eqIgnoreAsciiCase c1 c2 then Principal.compareComponents r1 r2 casefold utf8
        else .ok false
    else
      if c1 == c2 then Principal.compareComponents r1 r2 casefold utf8
      else .ok false
  | _, _, _, _ => .ok true

/-- Source `Principal::compare_with_flags`. -/
def Principal.compare_with_flags (p1 : Principal) (ctx : Context) (p2 : Principal)
    (flags : Nat) : Except Err Bool :=
  let utf8 : Bool := flags &&& Principal.COMPARE_UTF8 != 0
  let casefold : Bool := flags &&& Principal.COMPARE_CASEFOLD != 0
  match (if flags &&& Principal.COMPARE_ENTERPRISE != 0 &&
            p1.name_type == NameType.ENTERPRISE_PRINCIPAL then p1.upn_to_principal ctx
         else .ok p1) with
  | .error err => .error err
  | .ok q1 =>
    match (if flags &&& Principal.COMPARE_ENTERPRISE != 0 &&
              p2.name_type == NameType.ENTERPRISE_PRINCIPAL then p2.upn_to_principal ctx
           else .ok p2) with
    | .error err => .error err
    | .ok q2 =>
      if q1.components.length ≠ q2.components.length then .ok false
      else if flags &&& Principal.COMPARE_IGNORE_REALM = 0 ∧
              ¬ Principal.compare_realm_with_flags q1.realm q2.realm flags then .ok false
      else Principal.compareComponents q1.components q2.components casefold utf8

/-! ## DER ticket decoder (src/krb5/src/ticket.rs)

The source decodes through `der_parser`/`asn1_rs`: `Any::from_der` reads
one DER element; `CheckDerConstraints` requires class APPLICATION,
constructed, tag number 1; `TryFrom<Any>` then parses the content with
`parse_der_sequence` / `parse_der_i32` / `parse_der_generalstring` /
`parse_der_u32` / `parse_der_octetstring`.  The embedding parses DER
headers (including long tag and length forms) into raw elements; elements
of a parsed sequence whose class is not UNIVERSAL surface as
`BerObjectContent::Unknown`, which is what every field position of
`Ticket::try_from` requires.  The model is permissive where `der_parser`
enforces additional DER minimality constraints (non-minimal encodings). -/

/-- A parsed DER element: class (0 = universal, 1 = application,
2 = context, 3 = private), constructed bit, tag number, raw content. -/
structure DerElem where
  cls : Nat
  constructed : Bool
  tag : Nat
  content : List Nat
deriving DecidableEq, Repr

/-- High-tag-number form: base-128 continuation bytes. -/
def parseBase128 : List Nat → Nat → Option (Nat × List Nat)
  | [], _ => none
  | b :: r, acc =>
    if b < 128 then some (acc * 128 + b, r) else parseBase128 r (acc * 128 + (b - 128))

/-- DER length: short form, or long form with a byte count (indefinite
length `0x80` is rejected in DER). -/
def parseLen : List Nat → Option (Nat × List Nat)
  | [] => none
  | b :: r =>
    if b < 128 then some (b, r)
    else if b = 128 then none
    else
      let n := b - 128
      if (r.take n).length = n then some (bytesToNatBE (r.take n), r.drop n) else none

/-- Parse one DER element (identifier octets, length, content). -/
def parseElem (bs : List Nat) : Option (DerElem × List Nat) :=
  match bs with
  | [] => none
  | b :: r =>
    match (if b % 32 = 31 then parseBase128 r 0 else some (b % 32, r)) with
    | none => none
    | some (tag, r₁) =>
      match parseLen r₁ with
      | none => none
      | some (len, r₂) =>
        if len ≤ r₂.length then
          some (DerElem.mk (b / 64) ((b / 32) % 2 = 1) tag (r₂.take len), r₂.drop len)
        else none

/-- Parse a run of DER elements covering `bs` exactly (the children of a
constructed element); `fuel` bounds the recursion and is instantiated
with the byte count, which suffices since an element consumes at least
one byte. -/
def parseElems (fuel : Nat) (bs : List Nat) : Option (List DerElem) :=
  match fuel with
  | 0 => if bs = [] then some [] else none
  | f + 1 =>
    if bs = [] then some []
    else
      match parseElem bs with
      | none => none
      | some (e, rest) => (parseElems f rest).map (e :: ·)

/-- Source `parse_der_sequence(data)` followed by `as_sequence()`: the first
element of `data` must be a universal constructed SEQUENCE (tag 16); its
children are returned (trailing bytes after the sequence are ignored, as
the source drops the `nom` remainder). -/
def parseDerSequenceObj (bs : List Nat) : Option (List DerElem) :=
  match parseElem bs with
  | none => none
  | some (e, _) =>
    if e.cls = 0 ∧ e.constructed ∧ e.tag = 16 then parseElems e.content.length e.content
    else none

/-- Source `parse_der_i32`: a universal primitive INTEGER whose value fits `i32`
(at most 4 content bytes, two's complement). -/
def parseDerI32 (bs : List Nat) : Option Int :=
  match parseElem bs with
  | none => none
  | some (e, _) =>
    if e.cls = 0 ∧ ¬ e.constructed ∧ e.tag = 2 ∧ 1 ≤ e.content.length ∧ e.content.length ≤ 4 then
      some (asSigned e.content.length (bytesToNatBE e.content))
    else none

/-- Source `parse_der_u32`: a universal primitive INTEGER with a non-negative
value below `2^32` (at most 5 content bytes). -/
def parseDerU32 (bs : List Nat) : Option Nat :=
  match parseElem bs with
  | none => none
  | some (e, _) =>
    if e.cls = 0 ∧ ¬ e.constructed ∧ e.tag = 2 ∧ 1 ≤ e.content.length ∧ e.content.length ≤ 5 then
      let v := asSigned e.content.length (bytesToNatBE e.content)
      if 0 ≤ v ∧ v < 2 ^ 32 then some v.toNat else none
    else none

/-- Source `parse_der_generalstring` + `as_str`: universal primitive
GeneralString (tag 27) with UTF-8 content. -/
def parseDerGeneralString (bs : List Nat) : Option (List Nat) :=
  match parseElem bs with
  | none => none
  | some (e, _) =>
    if e.cls = 0 ∧ ¬ e.constructed ∧ e.tag = 27 ∧ utf8Valid e.content then some e.content
    else none

/-- Source `parse_der_octetstring` + the OctetString content match: universal
primitive OCTET STRING (tag 4). -/
def parseDerOctetString (bs : List Nat) : Option (List Nat) :=
  match parseElem bs with
  | none => none
  | some (e, _) =>
    if e.cls = 0 ∧ ¬ e.constructed ∧ e.tag = 4 then some e.content else none

/-- The sname component loop: each parsed child must satisfy `as_str`
(a universal primitive string element with UTF-8 content; GeneralString in
the on-wire grammar, UTF8String also accepted) and its bytes are taken. -/
def derStrComponents : List DerElem → Option (List (List Nat))
  | [] => some []
  | e :: rest =>
    if e.cls = 0 ∧ ¬ e.constructed ∧ (e.tag = 27 ∨ e.tag = 12) ∧ utf8Valid e.content then
      (derStrComponents rest).map (e.content :: ·)
    else none

/-- Source `EncData { enctype, kvno: Kvno(u32), ciphertext }`. -/
structure EncData where
  enctype : Int
  kvno : Nat
  ciphertext : List Nat
deriving DecidableEq, Repr

/-- Decoded `Ticket` (the unused `enc_part2` is always empty). -/
structure Ticket where
  server : Principal
  enc_part : EncData
deriving DecidableEq, Repr

/-- Source `Ticket::decode_from` = `Ticket::from_der`: an APPLICATION 1
constructed wrapper, inside it a SEQUENCE of four context-tagged fields
(version INTEGER, realm GeneralString, sname, encPart).  Within sname the
source reads the first context-tagged INTEGER as `component_count` and
rejects the input unless it equals the number of components; the server
principal is always assembled with `NameType::PRINCIPAL`. -/
def Ticket.decode_from (data : List Nat) : Except Err Ticket :=
  match parseElem data with
  | none => .error .berValueError
  | some (anyE, _) =>
    if anyE.cls = 1 ∧ anyE.constructed ∧ anyE.tag = 1 then
      match parseDerSequenceObj anyE.content with
      | none => .error .berValueError
      | some seq =>
        match seq with
        | [e0, e1, e2, e3] =>
          if e0.cls = 0 then .error .berValueError
          else
            match parseDerI32 e0.content with
            | none => .error .berValueError
            | some _version =>
              if e1.cls = 0 then .error .berValueError
              else
                match parseDerGeneralString e1.content with
                | none => .error .berValueError
                | some realm =>
                  if e2.cls = 0 then .error .berValueError
                  else
                    match parseDerSequenceObj e2.content with
                    | none => .error .berValueError
                    | some princ =>
                      match princ with
                      | [pe0, pe1] =>
                        if pe0.cls = 0 then .error .berValueError
                        else
                          match parseDerI32 pe0.content with
                          | none => .error .berValueError
                          | some component_count =>
                            if pe1.cls = 0 then .error .berValueError
                            else
                              match parseDerSequenceObj pe1.content with
                              | none => .error .berValueError
                              | some compElems =>
                                if component_count < 0 ∨
                                    compElems.length ≠ component_count.toNat then
                                  .error .berValueError
                                else
                                  match derStrComponents compElems with
                                  | none => .error .berValueError
                                  | some components =>
                                    if e3.cls = 0 then .error .berValueError
                                    else
                                      match parseDerSequenceObj e3.content with
                                      | none => .error .berValueError
                                      | some enc =>
                                        match enc with
                                        | [ee0, ee1, ee2] =>
                                          if ee0.cls = 0 then .error .berValueError
                                          else
                                            match parseDerI32 ee0.content with
                                            | none => .error .berValueError
                                            | some enctype =>
                                              if ee1.cls = 0 then .error .berValueError
                                              else
                                                match parseDerU32 ee1.content with
                                                | none => .error .berValueError
                                                | some kvno =>
                                                  if ee2.cls = 0 then .error .berValueError
                                                  else
                                                    match parseDerOctetString ee2.content with
                                                    | none => .error .berValueError
                                                    | some ciphertext =>
                                                      .ok (Ticket.mk
                                                        (Principal.mk realm components
                                                          NameType.PRINCIPAL)
                                                        (EncData.mk enctype kvno ciphertext))
                                        | _ => .error .berValueError
                      | _ => .error .berValueError
        | _ => .error .berValueError
    else .error .berValueError

/-! ## klist cache validation (src/krb5/src/bin/klist.rs, check_ccache) -/

/-- The scan loop of `check_ccache` over the credentials the iterator
yields, accumulating `found_tgt`, `found_current_tgt`,
`found_current_cred` (endtime is compared as `i64` against `NOW`). -/
def check_scan (realm : List Nat) (now : Int) (ft fct fcc : Bool) :
    List Credential → Bool × Bool × Bool
  | [] => (ft, fct, fcc)
  | c :: rest =>
    if c.server.is_local_tgt realm then
      check_scan realm now true (fct || decide ((c.times.endtime : Int) > now)) fcc rest
    else if !c.is_config && decide ((c.times.endtime : Int) > now) then
      check_scan realm now ft fct true rest
    else check_scan realm now ft fct fcc rest

/-- Source `check_ccache` succeeds (exit status 0) iff
`(found_tgt && found_current_tgt) || (!found_tgt && found_current_cred)`
over the scanned credentials of the cache whose default principal has the
given realm. -/
def check_ccache (realm : List Nat) (now : Int) (creds : List Credential) : Bool :=
  match check_scan realm now false false false creds with
  | (ft, fct, fcc) => (ft && fct) || (!ft && fcc)

/-! ## Claims -/

/-- C9: `is_config` only inspects the realm and the first component, but
`get_config` indexes `components[1]` unchecked: every credential that
satisfies the configuration predicate with exactly one component makes
`get_config` panic instead of returning a value or an error. -/
theorem get_config_panics_on_single_component (c : Credential)
    (hconf : c.is_config = true) (hlen : c.server.components.length = 1) :
    c.get_config = .error .panicked := by
  unfold Credential.get_config
  rw [hconf]
  have h1 : c.server.components.get? 1 = none := by
    rw [List.get?_eq_none]
    omega
  simp only [List.get?_eq_getElem?] at h1
  simp [h1]

/-- A concrete configuration credential with a single server component. -/
def c9cred : Credential :=
  Credential.mk
    (Principal.mk [82] [[117]] NameType.PRINCIPAL)
    (Principal.mk CONF_REALM [CONF_NAME] NameType.UNKNOWN)
    (Keyblock.mk 0 [])
    (TicketTimes.mk 0 0 0 0)
    false 0 [] [] [] []

theorem get_config_panics_on_single_component_witness :
    c9cred.is_config = true ∧ c9cred.server.components.length = 1 ∧
      c9cred.get_config = .error .panicked :=
  ⟨by decide, by decide,
    get_config_panics_on_single_component c9cred (by decide) (by decide)⟩

/-- C10: the ccache V1 principal reader decrements the 32-bit component
count without a guard — a V1 stream whose count field is 0 hits the
underflowing subtraction (a panic under checked arithmetic, not a
`CC_FORMAT` error) — while the keytab V1 principal reader requires
`count > 1` before its decrement and returns a clean `None` for counts 0
and 1. -/
theorem v1_component_count_underflow (data : List Nat) (native : Endianness) (pos p₁ : Nat)
    (hcc : readU32 data (CC.endianness native .v1) pos = (some 0, p₁)) :
    CC.read_principal data native .v1 pos = .error .panicked ∧
      ∀ (kdata : List Nat) (kpos kp₁ count0 : Nat),
        readU16 kdata (KT.endianness native .v1) kpos = (some count0, kp₁) → count0 ≤ 1 →
        KT.read_principal kdata native .v1 kpos = (none, kp₁) := by
  constructor
  · unfold CC.read_principal CC.readPrincipalBody
    simp [hcc]
  · intro kdata kpos kp₁ count0 hkt hle
    have hng : ¬ count0 > 1 := by omega
    simp [KT.read_principal, hkt, hng]

theorem v1_component_count_underflow_witness :
    CC.read_principal [0, 0, 0, 0] .little .v1 0 = .error .panicked ∧
      KT.read_principal [0, 0] .little .v1 0 = (none, 2) := by
  have h := v1_component_count_underflow [0, 0, 0, 0] .little 0 4 (by decide)
  exact ⟨h.1, h.2 [0, 0] 0 2 0 (by decide) (by decide)⟩

/-- The context C3 exercises: `SYNC_KDCTIME` set and the `TOFFSET_VALID`
bit already set in `os_flags`. -/
def c3ctx : Context := Context.mk 1 (OsContext.mk 0 0 1) []

/-- A V4 header body: total length 12, one DELTATIME field
(tag 1, length 8, offsets (7, 9)). -/
def c3data : List Nat := [0, 12, 0, 1, 0, 8, 0, 0, 0, 7, 0, 0, 0, 9]

/-- C3: `OsContext::time_offset_valid` compares `os_flags & 1` against 1
instead of 0, so it is false for every context; consequently a V4
DELTATIME header read overwrites `(time_offset, usec_offset)` even when
the `TOFFSET_VALID` bit is already set (the concrete run installs (7, 9)
over a context whose bit is set), contrary to the claim's second part. -/
theorem time_offset_valid_never_true :
    (∀ os : OsContext, os.time_offset_valid = false) ∧
      CC.read_header c3data .big c3ctx 0 =
        .ok (Context.mk 1 (OsContext.mk 7 9 1) [], 14) := by
  constructor
  · intro os
    unfold OsContext.time_offset_valid
    simp [KRB5_OS_TOFFSET_VALID, Nat.and_one_is_mod]
    omega
  · have h2 : CC.readHeaderFields c3data .big (Context.mk 1 (OsContext.mk 7 9 1) []) 14 0 =
        .ok (Context.mk 1 (OsContext.mk 7 9 1) [], 14) := by
      rw [CC.readHeaderFields.eq_def]
      rfl
    have h1 : CC.readHeaderFields c3data .big c3ctx 2 12 =
        CC.readHeaderFields c3data .big (Context.mk 1 (OsContext.mk 7 9 1) []) 14 0 := by
      rw [CC.readHeaderFields.eq_def]
      rfl
    have h0 : CC.read_header c3data .big c3ctx 0 = CC.readHeaderFields c3data .big c3ctx 2 12 :=
      rfl
    rw [h0, h1, h2]

theorem check_scan_eq (realm : List Nat) (now : Int) (creds : List Credential)
    (ft fct fcc : Bool) :
    check_scan realm now ft fct fcc creds =
      (ft || creds.any (fun c => c.server.is_local_tgt realm),
       fct || creds.any (fun c =>
         c.server.is_local_tgt realm && decide ((c.times.endtime : Int) > now)),
       fcc || creds.any (fun c =>
         !c.server.is_local_tgt realm && !c.is_config &&
           decide ((c.times.endtime : Int) > now))) := by
  induction creds generalizing ft fct fcc with
  | nil => simp [check_scan]
  | cons c rest ih =>
    by_cases h1 : c.server.is_local_tgt realm
    · simp only [check_scan, h1, if_true, List.any_cons]
      rw [ih]
      simp [h1, Bool.or_assoc]
    · have h1f : c.server.is_local_tgt realm = false := by simp [h1]
      by_cases h2 : (!c.is_config && decide ((c.times.endtime : Int) > now)) = true
      · simp only [check_scan, h1f, Bool.false_eq_true, if_false, h2, if_true, List.any_cons]
        rw [ih]
        simp [h1f, h2, Bool.or_assoc]
      · have h2f : (!c.is_config && decide ((c.times.endtime : Int) > now)) = false := by
          simp at h2 ⊢
          exact h2
        simp only [check_scan, h1f, Bool.false_eq_true, if_false, h2f, List.any_cons]
        rw [ih]
        simp [h1f, h2f, Bool.or_assoc]

/-- An expired non-TGT, non-configuration credential (endtime 500). -/
def c8expired : Credential :=
  Credential.mk
    (Principal.mk [82] [[117]] NameType.PRINCIPAL)
    (Principal.mk [82] [[115], [104]] NameType.PRINCIPAL)
    (Keyblock.mk 17 [1])
    (TicketTimes.mk 10 10 500 0)
    false 0 [] [1] [] []

/-- An unexpired non-TGT, non-configuration credential (endtime 2000). -/
def c8unexpired : Credential :=
  Credential.mk
    (Principal.mk [82] [[117]] NameType.PRINCIPAL)
    (Principal.mk [82] [[113], [104]] NameType.PRINCIPAL)
    (Keyblock.mk 17 [1])
    (TicketTimes.mk 10 10 2000 0)
    false 0 [] [1] [] []

/-- C8: `check_ccache` succeeds exactly when some local-TGT credential for
the default realm is unexpired, or no credential is a local TGT for that
realm and some non-configuration credential is unexpired; in particular a
cache with only an expired non-TGT credential fails at time 1000, and
adding one unexpired non-TGT credential makes it succeed. -/
theorem check_ccache_characterization (realm : List Nat) (now : Int)
    (creds : List Credential) :
    (check_ccache realm now creds = true ↔
      ((∃ c ∈ creds, c.server.is_local_tgt realm = true ∧ (c.times.endtime : Int) > now) ∨
       ((∀ c ∈ creds, c.server.is_local_tgt realm = false) ∧
        ∃ c ∈ creds, c.is_config = false ∧ (c.times.endtime : Int) > now))) ∧
      check_ccache [82] 1000 [c8expired] = false ∧
      check_ccache [82] 1000 [c8expired, c8unexpired] = true := by
  refine ⟨?_, by decide, by decide⟩
  unfold check_ccache
  rw [check_scan_eq]
  simp only [Bool.false_or]
  cases hA : (creds.any fun c => c.server.is_local_tgt realm) with
  | false =>
    have hnone : ∀ c ∈ creds, c.server.is_local_tgt realm = false := by
      simpa [List.any_eq_false] using hA
    simp only [Bool.false_and, Bool.not_false, Bool.true_and, Bool.false_or]
    rw [List.any_eq_true]
    constructor
    · rintro ⟨c, hc, hcond⟩
      simp only [Bool.and_eq_true, Bool.not_eq_true', decide_eq_true_eq] at hcond
      exact Or.inr ⟨hnone, c, hc, hcond.1.2, hcond.2⟩
    · rintro (⟨c, hc, htgt, _⟩ | ⟨-, c, hc, hconf, hend⟩)
      · exact absurd htgt (by simp [hnone c hc])
      · exact ⟨c, hc, by simp [hnone c hc, hconf, hend]⟩
  | true =>
    have hsome : ∃ c ∈ creds, c.server.is_local_tgt realm = true := by
      simpa [List.any_eq_true] using hA
    simp only [Bool.true_and, Bool.not_true, Bool.false_and, Bool.or_false]
    rw [List.any_eq_true]
    constructor
    · rintro ⟨c, hc, hcond⟩
      simp only [Bool.and_eq_true, decide_eq_true_eq] at hcond
      exact Or.inl ⟨c, hc, hcond.1, hcond.2⟩
    · rintro (⟨c, hc, htgt, hend⟩ | ⟨hall, -⟩)
      · exact ⟨c, hc, by simp [htgt, hend]⟩
      · obtain ⟨c, hc, htgt⟩ := hsome
        exact absurd htgt (by simp [hall c hc])

/-- Unfolding of `KT.read_entry` along a live record whose fixed fields
all decode. -/
theorem kt_read_entry_live (data : List Nat) (native : Endianness) (ver : KTVersion)
    (pos : Nat) (sz : Int) (p₁ : Nat) (pr : Principal) (p₂ ts p₃ v8 p₄ : Nat)
    (kb : Keyblock) (p₅ : Nat)
    (hsz : readI32 data (KT.endianness native ver) pos = (some sz, p₁))
    (hpos : 0 < sz)
    (hpr : KT.read_principal data native ver p₁ = (some pr, p₂))
    (hts : readU32 data (KT.endianness native ver) p₂ = (some ts, p₃))
    (hv8 : readU8 data p₃ = (some v8, p₄))
    (hkb : KT.read_keyblock data native ver p₄ = (some kb, p₅)) :
    KT.read_entry data native ver pos =
      if p₅ - p₁ + 4 ≤ sz.toNat then
        match readU32 data (KT.endianness native ver) p₅ with
        | (none, p) => .ok (none, p)
        | (some vno32, _) =>
          .ok (some (KeytabEntry.mk pr ts (if vno32 ≠ 0 then vno32 else v8) kb), p₁ + sz.toNat)
      else .ok (some (KeytabEntry.mk pr ts v8 kb), p₁ + sz.toNat) := by
  rw [KT.read_entry.eq_def]
  dsimp only
  split
  · next p heq =>
    rw [hsz] at heq
    simp at heq
  · next size p₁x heq =>
    rw [hsz] at heq
    have hs : sz = size ∧ p₁ = p₁x := by simpa using heq
    obtain ⟨h1eq, h2eq⟩ := hs
    subst h1eq
    subst h2eq
    rw [dif_pos hpos]
    simp only [hpr, hts, hv8, hkb]

/-- The principal of the S4 keytab entries (realm "AB", one component "a"). -/
def s4principal : Principal := Principal.mk [65, 66] [[97]] (NameType.mk 1)

/-- The keyblock of the S4 keytab entries. -/
def s4key : Keyblock := Keyblock.mk 17 [1, 2]

/-- S4 record: size 28, entry of 24 bytes, 8-bit vno 7, 4 trailing bytes
`00 00 00 0B`. -/
def ktS4dataA : List Nat :=
  [0, 0, 0, 28, 0, 1, 0, 2, 65, 66, 0, 1, 97, 0, 0, 0, 1, 0, 0, 0, 0, 7, 0, 17, 0, 2, 1, 2,
   0, 0, 0, 11]

/-- S4 record with trailing `00 00 00 00` instead. -/
def ktS4dataB : List Nat :=
  [0, 0, 0, 28, 0, 1, 0, 2, 65, 66, 0, 1, 97, 0, 0, 0, 1, 0, 0, 0, 0, 7, 0, 17, 0, 2, 1, 2,
   0, 0, 0, 0]

/-- C5: within a live keytab record, when at least 4 bytes remain inside
the declared size after principal, timestamp, 8-bit vno and keyblock, a
32-bit vno is read and overrides the 8-bit vno iff it is nonzero;
otherwise the 8-bit vno stands.  Concretely, 8-bit vno 7 with trailing
`00 00 00 0B` parses as vno 11, and with trailing `00 00 00 00` as vno 7. -/
theorem kt_vno32_override (data : List Nat) (native : Endianness) (ver : KTVersion)
    (pos : Nat) (sz : Int) (p₁ : Nat) (pr : Principal) (p₂ ts p₃ v8 p₄ : Nat)
    (kb : Keyblock) (p₅ : Nat)
    (hsz : readI32 data (KT.endianness native ver) pos = (some sz, p₁))
    (hpos : 0 < sz)
    (hpr : KT.read_principal data native ver p₁ = (some pr, p₂))
    (hts : readU32 data (KT.endianness native ver) p₂ = (some ts, p₃))
    (hv8 : readU8 data p₃ = (some v8, p₄))
    (hkb : KT.read_keyblock data native ver p₄ = (some kb, p₅)) :
    ((p₅ - p₁ + 4 ≤ sz.toNat →
        ∀ w pw, readU32 data (KT.endianness native ver) p₅ = (some w, pw) →
          KT.read_entry data native ver pos =
            .ok (some (KeytabEntry.mk pr ts (if w ≠ 0 then w else v8) kb), p₁ + sz.toNat)) ∧
      (¬ (p₅ - p₁ + 4 ≤ sz.toNat) →
        KT.read_entry data native ver pos =
          .ok (some (KeytabEntry.mk pr ts v8 kb), p₁ + sz.toNat))) ∧
      KT.read_entry ktS4dataA .little .v2 0 =
        .ok (some (KeytabEntry.mk s4principal 0 11 s4key), 32) ∧
      KT.read_entry ktS4dataB .little .v2 0 =
        .ok (some (KeytabEntry.mk s4principal 0 7 s4key), 32) := by
  refine ⟨⟨?_, ?_⟩, ?_, ?_⟩
  · intro hle w pw hw
    rw [kt_read_entry_live data native ver pos sz p₁ pr p₂ ts p₃ v8 p₄ kb p₅
      hsz hpos hpr hts hv8 hkb, if_pos hle]
    simp only [hw]
  · intro hgt
    rw [kt_read_entry_live data native ver pos sz p₁ pr p₂ ts p₃ v8 p₄ kb p₅
      hsz hpos hpr hts hv8 hkb, if_neg hgt]
  · rw [KT.read_entry.eq_def]
    rfl
  · rw [KT.read_entry.eq_def]
    rfl

theorem kt_vno32_override_witness :
    KT.read_entry ktS4dataA .little .v2 0 =
      .ok (some (KeytabEntry.mk s4principal 0 11 s4key), 32) := by
  have h := kt_vno32_override ktS4dataA .little .v2 0 28 4 s4principal 17 0 21 7 22 s4key 28
    (by decide) (by decide) (by decide) (by decide) (by decide) (by decide)
  have h2 := h.1.1 (by decide) 11 32 (by decide)
  simpa using h2

/-- The principal of the second S3 keytab entry (realm "CD", component "b"). -/
def s3principalB : Principal := Principal.mk [67, 68] [[98]] (NameType.mk 1)

/-- S3 keytab file: version bytes `05 02`, then records
`[+28 live] [-16 hole] [+28 live] [0]`. -/
def ktS3data : List Nat :=
  [5, 2,
   0, 0, 0, 28,
   0, 1, 0, 2, 65, 66, 0, 1, 97, 0, 0, 0, 1, 0, 0, 0, 0, 7, 0, 17, 0, 2, 1, 2, 0, 0, 0, 11,
   255, 255, 255, 240,
   0, 0, 0, 0, 0, 0, 0, 0, 0, 0, 0, 0, 0, 0, 0, 0,
   0, 0, 0, 28,
   0, 1, 0, 2, 67, 68, 0, 1, 98, 0, 0, 0, 1, 0, 0, 0, 0, 9, 0, 17, 0, 2, 1, 2, 0, 0, 0, 0,
   0, 0, 0, 0]

/-- C4: keytab record framing — after a leading signed 32-bit size read as
`(some sz, p₁)`: a positive size that yields an entry leaves the reader at
exactly `p₁ + sz` (even when the decoded entry is smaller); a negative
size other than `i32::MIN` skips exactly `-sz` bytes and continues;
`i32::MIN` is `KT_FORMAT`; zero ends iteration.  Consequently the S3 file
`[+28 live] [-16 hole] [+28 live] [0]` yields exactly its two live entries
in file order. -/
theorem kt_record_framing (data : List Nat) (native : Endianness) (ver : KTVersion)
    (pos : Nat) (sz : Int) (p₁ : Nat)
    (hsz : readI32 data (KT.endianness native ver) pos = (some sz, p₁)) :
    ((0 < sz → ∀ ent p₂, KT.read_entry data native ver pos = .ok (some ent, p₂) →
        p₂ = p₁ + sz.toNat) ∧
      (sz < 0 → sz ≠ -(2 ^ 31) →
        KT.read_entry data native ver pos = KT.read_entry data native ver (p₁ + (-sz).toNat)) ∧
      (sz = -(2 ^ 31) → KT.read_entry data native ver pos = .error .ktFormat) ∧
      (sz = 0 → KT.read_entry data native ver pos = .ok (none, p₁))) ∧
      (KT.read_version ktS3data 0 = .ok (.v2, 2) ∧
        KT.read_entry ktS3data .little .v2 2 =
          .ok (some (KeytabEntry.mk s4principal 0 11 s4key), 34) ∧
        KT.read_entry ktS3data .little .v2 34 =
          .ok (some (KeytabEntry.mk s3principalB 0 9 s4key), 86) ∧
        KT.read_entry ktS3data .little .v2 86 = .ok (none, 90)) := by
  constructor
  · refine ⟨?_, ?_, ?_, ?_⟩
    · intro h0 ent p₂ hent
      rw [KT.read_entry.eq_def] at hent
      dsimp only at hent
      split at hent
      · next p heq =>
        rw [hsz] at heq
        simp at heq
      · next size p₁x heq =>
        rw [hsz] at heq
        have hs : sz = size ∧ p₁ = p₁x := by simpa using heq
        obtain ⟨h1eq, h2eq⟩ := hs
        subst h1eq
        subst h2eq
        rw [dif_pos h0] at hent
        split at hent
        · simp at hent
        · split at hent
          · simp at hent
          · split at hent
            · simp at hent
            · split at hent
              · simp at hent
              · split at hent
                · split at hent
                  · simp at hent
                  · simp at hent
                    omega
                · simp at hent
                  omega
    · intro hneg hmin
      rw [KT.read_entry.eq_def]
      dsimp only
      split
      · next p heq =>
        rw [hsz] at heq
        simp at heq
      · next size p₁x heq =>
        rw [hsz] at heq
        have hs : sz = size ∧ p₁ = p₁x := by simpa using heq
        obtain ⟨h1eq, h2eq⟩ := hs
        subst h1eq
        subst h2eq
        rw [dif_neg (by omega), dif_pos hneg, if_neg hmin]
    · intro hmin
      rw [KT.read_entry.eq_def]
      dsimp only
      split
      · next p heq =>
        rw [hsz] at heq
        simp at heq
      · next size p₁x heq =>
        rw [hsz] at heq
        have hs : sz = size ∧ p₁ = p₁x := by simpa using heq
        obtain ⟨h1eq, h2eq⟩ := hs
        subst h1eq
        subst h2eq
        have hneg : sz < 0 := by
          rw [hmin]
          norm_num
        rw [dif_neg (by omega), dif_pos hneg, if_pos hmin]
    · intro hzero
      rw [KT.read_entry.eq_def]
      dsimp only
      split
      · next p heq =>
        rw [hsz] at heq
        simp at heq
      · next size p₁x heq =>
        rw [hsz] at heq
        have hs : sz = size ∧ p₁ = p₁x := by simpa using heq
        obtain ⟨h1eq, h2eq⟩ := hs
        subst h1eq
        subst h2eq
        rw [dif_neg (by omega), dif_neg (by omega)]
  · refine ⟨by decide, ?_, ?_, ?_⟩
    · rw [KT.read_entry.eq_def]
      rfl
    · have hmid : KT.read_entry ktS3data .little .v2 34 = KT.read_entry ktS3data .little .v2 54 := by
        rw [KT.read_entry.eq_def]
        rfl
      have h54 : KT.read_entry ktS3data .little .v2 54 =
          .ok (some (KeytabEntry.mk s3principalB 0 9 s4key), 86) := by
        rw [KT.read_entry.eq_def]
        rfl
      exact hmid.trans h54
    · rw [KT.read_entry.eq_def]
      rfl

theorem kt_record_framing_witness :
    KT.read_entry ktS3data .little .v2 86 = .ok (none, 90) :=
  ((kt_record_framing ktS3data .little .v2 86 0 90 (by decide)).1.2.2.2) rfl

/-- C6: `parse_name` fails with `MALFORMED` exactly when the input ends in
a backslash, or an explicit realm is present together with `NO_REALM`, or
a non-enterprise explicit realm contains `/`, or the explicit realm
contains another `@`, or no realm is present and `REQUIRE_REALM` is set;
away from these conditions parsing succeeds whenever the default-realm
lookup, when needed, succeeds. -/
theorem parse_name_malformed_characterization (ctx : Context) (name : List Nat) (flags : Nat) :
    (Principal.parse_name ctx name flags = .error .parseMalformed ↔
      (name.getLast? = some 92 ∨
        match (Principal.splitRealm name flags).2 with
        | some realm =>
          flags &&& Principal.PARSE_NO_REALM ≠ 0 ∨
            (flags &&& Principal.PARSE_ENTERPRISE = 0 ∧ 47 ∈ realm) ∨ 64 ∈ realm
        | none => flags &&& Principal.PARSE_REQUIRE_REALM ≠ 0)) ∧
    (¬ (name.getLast? = some 92 ∨
        match (Principal.splitRealm name flags).2 with
        | some realm =>
          flags &&& Principal.PARSE_NO_REALM ≠ 0 ∨
            (flags &&& Principal.PARSE_ENTERPRISE = 0 ∧ 47 ∈ realm) ∨ 64 ∈ realm
        | none => flags &&& Principal.PARSE_REQUIRE_REALM ≠ 0) →
      ((Principal.splitRealm name flags).2 = none →
        flags &&& Principal.PARSE_NO_REALM = 0 →
        flags &&& Principal.PARSE_IGNORE_REALM = 0 →
        flags &&& Principal.PARSE_NO_DEF_REALM = 0 → ctx.default_realm ≠ []) →
      ∃ p, Principal.parse_name ctx name flags = .ok p) := by
  by_cases hback : name.getLast? = some 92
  · refine ⟨⟨fun _ => Or.inl hback, fun _ => by simp [Principal.parse_name, hback]⟩,
      fun hnc _ => absurd (Or.inl hback) hnc⟩
  · rcases hsp : (Principal.splitRealm name flags).2 with _ | realm
    · -- no explicit realm
      by_cases hreq : (flags &&& Principal.PARSE_REQUIRE_REALM != 0) = true
      · have hres : Principal.parse_name ctx name flags = .error .parseMalformed := by
          unfold Principal.parse_name
          rw [if_neg hback]
          dsimp only
          simp only [hsp]
          rw [if_pos hreq]
        exact ⟨⟨fun _ => Or.inr (by simpa using hreq), fun _ => hres⟩,
          fun hnc _ => absurd (Or.inr (by simpa using hreq)) hnc⟩
      · by_cases hfl : ((flags &&& Principal.PARSE_NO_REALM != 0) ||
            (flags &&& Principal.PARSE_IGNORE_REALM != 0) ||
            (flags &&& Principal.PARSE_NO_DEF_REALM != 0)) = true
        · have hres : ∃ p, Principal.parse_name ctx name flags = .ok p := by
            rcases hpn : Principal.parse_name ctx name flags with err | p
            · exfalso
              unfold Principal.parse_name at hpn
              rw [if_neg hback] at hpn
              dsimp only at hpn
              simp only [hsp] at hpn
              rw [if_neg hreq, if_pos hfl] at hpn
              simp at hpn
            · exact ⟨p, rfl⟩
          obtain ⟨p, hp⟩ := hres
          refine ⟨⟨fun h => absurd (hp ▸ h) (by simp), fun hr => ?_⟩, fun _ _ => ⟨p, hp⟩⟩
          rcases hr with h92 | hr
          · exact absurd h92 hback
          · exact absurd hr (by simpa using hreq)
        · rcases hdef : ctx.get_default_realm with err | drealm
          · have herr : err = Err.noDefRealm := by
              unfold Context.get_default_realm at hdef
              by_cases hd : ctx.default_realm ≠ []
              · simp [hd] at hdef
              · simp [hd] at hdef
                exact hdef.symm
            have hres : Principal.parse_name ctx name flags = .error err := by
              unfold Principal.parse_name
              rw [if_neg hback]
              dsimp only
              simp only [hsp]
              rw [if_neg hreq, if_neg hfl, hdef]
            refine ⟨⟨fun h => ?_, fun hr => ?_⟩, fun hnc hd => ?_⟩
            · rw [hres] at h
              rw [herr] at h
              simp at h
            · rcases hr with h92 | hr
              · exact absurd h92 hback
              · exact absurd hr (by simpa using hreq)
            · exfalso
              simp only [Bool.or_eq_true, bne_iff_ne, ne_eq, Bool.not_eq_true] at hfl
              push_neg at hfl
              have hne := hd rfl hfl.1.1 hfl.1.2 hfl.2
              unfold Context.get_default_realm at hdef
              simp [hne] at hdef
          · have hres : ∃ p, Principal.parse_name ctx name flags = .ok p := by
              rcases hpn : Principal.parse_name ctx name flags with err | p
              · exfalso
                unfold Principal.parse_name at hpn
                rw [if_neg hback] at hpn
                dsimp only at hpn
                simp only [hsp] at hpn
                rw [if_neg hreq, if_neg hfl, hdef] at hpn
                simp at hpn
              · exact ⟨p, rfl⟩
            obtain ⟨p, hp⟩ := hres
            refine ⟨⟨fun h => absurd (hp ▸ h) (by simp), fun hr => ?_⟩, fun _ _ => ⟨p, hp⟩⟩
            rcases hr with h92 | hr
            · exact absurd h92 hback
            · exact absurd hr (by simpa using hreq)
    · -- explicit realm present
      by_cases hcond : ((flags &&& Principal.PARSE_NO_REALM != 0) ||
          (!(flags &&& Principal.PARSE_ENTERPRISE != 0) && realm.contains 47) ||
          realm.contains 64) = true
      · have hres : Principal.parse_name ctx name flags = .error .parseMalformed := by
          unfold Principal.parse_name
          rw [if_neg hback]
          dsimp only
          simp only [hsp]
          rw [if_pos hcond]
        refine ⟨⟨fun _ => Or.inr ?_, fun _ => hres⟩, fun hnc _ => absurd (Or.inr ?_) hnc⟩
        · simp at hcond
          tauto
        · simp at hcond
          tauto
      · have hres : ∃ p, Principal.parse_name ctx name flags = .ok p := by
          rcases hpn : Principal.parse_name ctx name flags with err | p
          · exfalso
            unfold Principal.parse_name at hpn
            rw [if_neg hback] at hpn
            dsimp only at hpn
            simp only [hsp] at hpn
            rw [if_neg hcond] at hpn
            split at hpn
            · rename_i heq2
              split at heq2 <;> simp at heq2
            · simp at hpn
          · exact ⟨p, rfl⟩
        obtain ⟨p, hp⟩ := hres
        refine ⟨⟨fun h => absurd (hp ▸ h) (by simp), fun hr => ?_⟩, fun _ _ => ⟨p, hp⟩⟩
        rcases hr with h92 | hr
        · exact absurd h92 hback
        · refine absurd hr ?_
          simp at hcond
          tauto

/-- A context with default realm "R". -/
def c6ctx : Context := Context.mk 0 (OsContext.mk 0 0 0) [82]

theorem parse_name_malformed_characterization_witness :
    ∃ p, Principal.parse_name c6ctx [117, 64, 82] 0 = .ok p :=
  (parse_name_malformed_characterization c6ctx [117, 64, 82] 0).2
    (by simp [Principal.splitRealm, Principal.findRealmFrom, firstIdx])
    (by simp [Principal.splitRealm, Principal.findRealmFrom, firstIdx])

theorem cc_read_data_error (data : List Nat) (e : Endianness) (pos : Nat) (err : Err)
    (h : CC.read_data data e pos = .error err) : err = .ccFormat := by
  unfold CC.read_data at h
  repeat' split at h
  all_goals simp_all

theorem cc_readComponents_error (data : List Nat) (e : Endianness) :
    ∀ n pos err, CC.readComponents data e n pos = .error err → err = .ccFormat := by
  intro n
  induction n with
  | zero =>
    intro pos err h
    simp [CC.readComponents] at h
  | succ k ih =>
    intro pos err h
    unfold CC.readComponents at h
    split at h
    · next e2 heq =>
      simp at h
      exact h ▸ cc_read_data_error data e pos e2 heq
    · simp_all
    · next c p₁ heq =>
      split at h
      · next e2 heq2 =>
        simp at h
        exact h ▸ ih p₁ e2 heq2
      · simp at h

theorem cc_readPrincipalBody_not_none (data : List Nat) (native : Endianness)
    (ver : CCVersion) (nt : NameType) (pos p' : Nat) :
    CC.readPrincipalBody data native ver nt pos ≠ .ok (none, p') := by
  intro h
  unfold CC.readPrincipalBody at h
  dsimp only at h
  repeat' split at h
  all_goals simp_all

theorem cc_readPrincipalBody_error (data : List Nat) (native : Endianness)
    (ver : CCVersion) (nt : NameType) (pos : Nat) (err : Err) (hver : ver ≠ CCVersion.v1)
    (h : CC.readPrincipalBody data native ver nt pos = .error err) : err = .ccFormat := by
  unfold CC.readPrincipalBody at h
  dsimp only at h
  rcases h32 : readU32 data (CC.endianness native ver) pos with ⟨c?, q₁⟩
  rw [h32] at h
  cases c? with
  | none => simp_all
  | some count0 =>
    dsimp only at h
    rw [if_neg hver] at h
    dsimp only at h
    rcases hrd : CC.read_data data (CC.endianness native ver) q₁ with e2 | rv
    · rw [hrd] at h
      dsimp only at h
      simp at h
      exact h ▸ cc_read_data_error data _ q₁ e2 hrd
    · rw [hrd] at h
      rcases rv with ⟨rv?, q₂⟩
      cases rv? with
      | none => simp_all
      | some realm =>
        dsimp only at h
        rcases hrc : CC.readComponents data (CC.endianness native ver) count0 q₂ with e2 | cs
        · rw [hrc] at h
          dsimp only at h
          simp at h
          exact h ▸ cc_readComponents_error data _ count0 q₂ e2 hrc
        · rw [hrc] at h
          simp at h

theorem cc_read_principal_none_of_short (data : List Nat) (native : Endianness)
    (ver : CCVersion) (pos : Nat) (hver : ver ≠ CCVersion.v1)
    (hshort : data.length < pos + 4) :
    CC.read_principal data native ver pos = .ok (none, pos + (data.length - pos)) := by
  unfold CC.read_principal
  rw [if_neg hver]
  have : readI32 data (CC.endianness native ver) pos =
      (none, pos + (data.length - pos)) := by
    unfold readI32 readExact
    rw [if_neg (by omega)]
  rw [this]

theorem cc_read_principal_none_shape (data : List Nat) (native : Endianness)
    (ver : CCVersion) (pos p' : Nat) (hver : ver ≠ CCVersion.v1)
    (h : CC.read_principal data native ver pos = .ok (none, p')) :
    data.length < pos + 4 := by
  unfold CC.read_principal at h
  rw [if_neg hver] at h
  rcases hri : readI32 data (CC.endianness native ver) pos with ⟨v, p⟩
  rcases v with _ | nt
  · have := readI32_none_iff data (CC.endianness native ver) pos
    rw [hri] at this
    simpa using this.mp rfl
  · rw [hri] at h
    exact absurd h (cc_readPrincipalBody_not_none data native ver (NameType.mk nt) p p')

theorem cc_read_principal_error (data : List Nat) (native : Endianness)
    (ver : CCVersion) (pos : Nat) (err : Err) (hver : ver ≠ CCVersion.v1)
    (h : CC.read_principal data native ver pos = .error err) : err = .ccFormat := by
  unfold CC.read_principal at h
  rw [if_neg hver] at h
  split at h
  · simp at h
  · next nt p₁ heq =>
    exact cc_readPrincipalBody_error data native ver (NameType.mk nt) p₁ err hver h

theorem cc_read_keyblock_error (data : List Nat) (native : Endianness)
    (ver : CCVersion) (pos : Nat) (err : Err)
    (h : CC.read_keyblock data native ver pos = .error err) : err = .ccFormat := by
  unfold CC.read_keyblock at h
  dsimp only at h
  rcases h16 : readU16 data (CC.endianness native ver) pos with ⟨v?, q₁⟩
  rw [h16] at h
  cases v? with
  | none => simp_all
  | some et =>
    dsimp only at h
    by_cases hv : ver = CCVersion.v3
    · rw [if_pos hv] at h
      rcases h16b : readU16 data (CC.endianness native ver) q₁ with ⟨w?, q₂⟩
      rw [h16b] at h
      cases w? with
      | none => simp_all
      | some w =>
        dsimp only at h
        rcases hrd : CC.read_data data (CC.endianness native ver) q₂ with e2 | rv
        · rw [hrd] at h
          dsimp only at h
          simp at h
          exact h ▸ cc_read_data_error data _ q₂ e2 hrd
        · rw [hrd] at h
          rcases rv with ⟨rv?, q₃⟩
          cases rv? with
          | none => simp_all
          | some contents => simp at h
    · rw [if_neg hv] at h
      dsimp only at h
      rcases hrd : CC.read_data data (CC.endianness native ver) q₁ with e2 | rv
      · rw [hrd] at h
        dsimp only at h
        simp at h
        exact h ▸ cc_read_data_error data _ q₁ e2 hrd
      · rw [hrd] at h
        rcases rv with ⟨rv?, q₃⟩
        cases rv? with
        | none => simp_all
        | some contents => simp at h

theorem cc_read_ticket_times_error (data : List Nat) (e : Endianness) (pos : Nat) (err : Err)
    (h : CC.read_ticket_times data e pos = .error err) : err = .ccFormat := by
  unfold CC.read_ticket_times at h
  repeat' split at h
  all_goals simp_all

theorem cc_readAddressList_error (data : List Nat) (e : Endianness) :
    ∀ n pos err, CC.readAddressList data e n pos = .error err → err = .ccFormat := by
  intro n
  induction n with
  | zero =>
    intro pos err h
    simp [CC.readAddressList] at h
  | succ k ih =>
    intro pos err h
    unfold CC.readAddressList at h
    split at h
    · simp_all
    · next at1 p₁ heq =>
      split at h
      · next e2 heq2 =>
        simp at h
        exact h ▸ cc_read_data_error data e p₁ e2 heq2
      · simp_all
      · next c p₂ heq2 =>
        split at h
        · next e2 heq3 =>
          simp at h
          exact h ▸ ih p₂ e2 heq3
        · simp at h

theorem cc_read_addresses_error (data : List Nat) (e : Endianness) (pos : Nat) (err : Err)
    (h : CC.read_addresses data e pos = .error err) : err = .ccFormat := by
  unfold CC.read_addresses at h
  split at h
  · simp_all
  · next count p₁ heq =>
    exact cc_readAddressList_error data e count p₁ err h

theorem cc_readAuthDataList_error (data : List Nat) (e : Endianness) :
    ∀ n pos err, CC.readAuthDataList data e n pos = .error err → err = .ccFormat := by
  intro n
  induction n with
  | zero =>
    intro pos err h
    simp [CC.readAuthDataList] at h
  | succ k ih =>
    intro pos err h
    unfold CC.readAuthDataList at h
    split at h
    · simp_all
    · next at1 p₁ heq =>
      split at h
      · next e2 heq2 =>
        simp at h
        exact h ▸ cc_read_data_error data e p₁ e2 heq2
      · simp_all
      · next c p₂ heq2 =>
        split at h
        · next e2 heq3 =>
          simp at h
          exact h ▸ ih p₂ e2 heq3
        · simp at h

theorem cc_read_authdata_error (data : List Nat) (e : Endianness) (pos : Nat) (err : Err)
    (h : CC.read_authdata data e pos = .error err) : err = .ccFormat := by
  unfold CC.read_authdata at h
  split at h
  · simp_all
  · next count p₁ heq =>
    exact cc_readAuthDataList_error data e count p₁ err h

theorem cc_read_credential_error (data : List Nat) (native : Endianness) (ver : CCVersion)
    (pos : Nat) (err : Err) (hver : ver ≠ CCVersion.v1)
    (h : CC.read_credential data native ver pos = .error err) : err = .ccFormat := by
  unfold CC.read_credential at h
  dsimp only at h
  rcases hcl : CC.read_principal data native ver pos with e2 | cl
  · rw [hcl] at h
    dsimp only at h
    simp at h
    exact h ▸ cc_read_principal_error data native ver pos e2 hver hcl
  · rw [hcl] at h
    rcases cl with ⟨cl?, p₁⟩
    cases cl? with
    | none => simp at h
    | some client =>
      dsimp only at h
      rcases hsv : CC.read_principal data native ver p₁ with e2 | sv
      · rw [hsv] at h
        dsimp only at h
        simp at h
        exact h ▸ cc_read_principal_error data native ver p₁ e2 hver hsv
      · rw [hsv] at h
        rcases sv with ⟨sv?, p₂⟩
        cases sv? with
        | none => simp at h
        | some server =>
          dsimp only at h
          rcases hkb : CC.read_keyblock data native ver p₂ with e2 | kb
          · rw [hkb] at h
            dsimp only at h
            simp at h
            exact h ▸ cc_read_keyblock_error data native ver p₂ e2 hkb
          · rw [hkb] at h
            rcases kb with ⟨kb, p₃⟩
            dsimp only at h
            rcases htt : CC.read_ticket_times data (CC.endianness native ver) p₃ with e2 | tt
            · rw [htt] at h
              dsimp only at h
              simp at h
              exact h ▸ cc_read_ticket_times_error data _ p₃ e2 htt
            · rw [htt] at h
              rcases tt with ⟨times, p₄⟩
              dsimp only at h
              rcases h8 : readU8 data p₄ with ⟨s?, p₅⟩
              rw [h8] at h
              cases s? with
              | none => simp_all
              | some skey =>
                dsimp only at h
                rcases h32 : readI32 data (CC.endianness native ver) p₅ with ⟨f?, p₆⟩
                rw [h32] at h
                cases f? with
                | none => simp_all
                | some tf =>
                  dsimp only at h
                  rcases had : CC.read_addresses data (CC.endianness native ver) p₆ with e2 | ad
                  · rw [had] at h
                    dsimp only at h
                    simp at h
                    exact h ▸ cc_read_addresses_error data _ p₆ e2 had
                  · rw [had] at h
                    rcases ad with ⟨addresses, p₇⟩
                    dsimp only at h
                    rcases hau : CC.read_authdata data (CC.endianness native ver) p₇ with e2 | au
                    · rw [hau] at h
                      dsimp only at h
                      simp at h
                      exact h ▸ cc_read_authdata_error data _ p₇ e2 hau
                    · rw [hau] at h
                      rcases au with ⟨authdata, p₈⟩
                      dsimp only at h
                      rcases ht1 : CC.read_data data (CC.endianness native ver) p₈ with e2 | t1
                      · rw [ht1] at h
                        dsimp only at h
                        simp at h
                        exact h ▸ cc_read_data_error data _ p₈ e2 ht1
                      · rw [ht1] at h
                        rcases t1 with ⟨t1?, p₉⟩
                        cases t1? with
                        | none => simp_all
                        | some ticket =>
                          dsimp only at h
                          rcases ht2 : CC.read_data data (CC.endianness native ver) p₉ with e2 | t2
                          · rw [ht2] at h
                            dsimp only at h
                            simp at h
                            exact h ▸ cc_read_data_error data _ p₉ e2 ht2
                          · rw [ht2] at h
                            rcases t2 with ⟨t2?, p₁₀⟩
                            cases t2? with
                            | none => simp_all
                            | some st => simp at h

/-- C1 (amended): for V2–V4 the credential sequence ends cleanly exactly
when fewer than 4 bytes remain at the start of a record, or a client
principal parses and fewer than 4 bytes remain immediately after it (in
particular end-of-file exactly between records ends cleanly, but so does
end-of-file right after a record's client principal); every error the
reader reports is `CC_FORMAT`; and a V1 stream reports `CC_FORMAT` even
at end-of-file between records. -/
theorem cc_clean_end_characterization (data : List Nat) (native : Endianness)
    (ver : CCVersion) (pos : Nat) :
    (ver ≠ CCVersion.v1 →
      ((∃ p', CC.read_credential data native ver pos = .ok (none, p')) ↔
        (data.length < pos + 4 ∨
          ∃ cp p₁, CC.read_principal data native ver pos = .ok (some cp, p₁) ∧
            data.length < p₁ + 4))) ∧
    (data.length < pos + 4 → CC.read_credential data native CCVersion.v1 pos = .error .ccFormat) ∧
    (ver ≠ CCVersion.v1 → ∀ err, CC.read_credential data native ver pos = .error err →
      err = .ccFormat) := by
  refine ⟨fun hver => ⟨?_, ?_⟩, ?_, fun hver err h => cc_read_credential_error data native ver pos err hver h⟩
  · rintro ⟨p', h⟩
    unfold CC.read_credential at h
    dsimp only at h
    rcases hcl : CC.read_principal data native ver pos with e2 | cl
    · rw [hcl] at h
      dsimp only at h
      simp at h
    · rw [hcl] at h
      rcases cl with ⟨cl?, p₁⟩
      cases cl? with
      | none =>
        exact Or.inl (cc_read_principal_none_shape data native ver pos p₁ hver hcl)
      | some client =>
        dsimp only at h
        rcases hsv : CC.read_principal data native ver p₁ with e2 | sv
        · rw [hsv] at h
          dsimp only at h
          simp at h
        · rw [hsv] at h
          rcases sv with ⟨sv?, p₂⟩
          cases sv? with
          | none =>
            exact Or.inr ⟨client, p₁, rfl,
              cc_read_principal_none_shape data native ver p₁ p₂ hver hsv⟩
          | some server =>
            exfalso
            dsimp only at h
            repeat' split at h
            all_goals simp_all
  · rintro (hshort | ⟨cp, p₁, hcp, hshort⟩)
    · have h1 := cc_read_principal_none_of_short data native ver pos hver hshort
      refine ⟨pos + (data.length - pos), ?_⟩
      unfold CC.read_credential
      dsimp only
      rw [h1]
    · have h1 := cc_read_principal_none_of_short data native ver p₁ hver hshort
      refine ⟨p₁ + (data.length - p₁), ?_⟩
      unfold CC.read_credential
      dsimp only
      rw [hcp]
      dsimp only
      rw [h1]
  · intro hshort
    have hp : CC.read_principal data native CCVersion.v1 pos = .error .ccFormat := by
      unfold CC.read_principal
      rw [if_pos rfl]
      unfold CC.readPrincipalBody
      dsimp only
      have h32 : readU32 data (CC.endianness native CCVersion.v1) pos =
          (none, pos + (data.length - pos)) := by
        unfold readU32 readExact
        rw [if_neg (by omega)]
      rw [h32]
    unfold CC.read_credential
    dsimp only
    rw [hp]

/-- The empty context used by concrete ccache runs. -/
def c1ctx : Context := Context.mk 0 (OsContext.mk 0 0 0) []

/-- The principal `u@R` as marshalled in the concrete V2 stream. -/
def c1principal : Principal := Principal.mk [82] [[117]] (NameType.mk 1)

/-- A V2 ccache stream (native = little): version bytes, a default
principal, then a lone client principal — the stream ends inside a
credential record, after its client principal. -/
def c1data : List Nat :=
  [5, 2,
   1, 0, 0, 0, 1, 0, 0, 0, 1, 0, 0, 0, 82, 1, 0, 0, 0, 117,
   1, 0, 0, 0, 1, 0, 0, 0, 1, 0, 0, 0, 82, 1, 0, 0, 0, 117]

/-- C1 counterexample: the claim says end-of-file partway through a
credential record (here: after the client principal) yields `CC_FORMAT`,
but the reader ends cleanly (`Ok(None)`): the stream parses up to the
default principal at offset 20, a full client principal consumes the rest
of the 38-byte stream, and `read_credential` at 20 returns a clean end. -/
theorem cc_clean_end_counterexample :
    CC.read_up_to_principal c1data .little c1ctx = .ok (.v2, c1ctx, some c1principal, 20) ∧
    CC.read_principal c1data .little .v2 20 = .ok (some c1principal, 38) ∧
    c1data.length = 38 ∧
    CC.read_credential c1data .little .v2 20 = .ok (none, 38) :=
  ⟨by decide, by decide, by decide, by decide⟩

theorem cc_clean_end_characterization_witness :
    ∃ p', CC.read_credential c1data .little .v2 20 = .ok (none, p') :=
  ((cc_clean_end_characterization c1data .little .v2 20).1 (by decide)).mpr
    (Or.inr ⟨c1principal, 38, by decide, by decide⟩)

/-- A well-formed DER Ticket whose sname leading INTEGER is 1 and which
carries exactly one GeneralString component "s": APPLICATION 1 wrapping
SEQUENCE { [0] INT 5, [1] GeneralString "R", [2] SEQUENCE { [0] INT 1,
[1] SEQUENCE { GeneralString "s" } }, [3] SEQUENCE { [0] INT 0,
[1] INT 2, [2] OCTET STRING AB CD } }. -/
def c2good : List Nat :=
  [97, 48, 48, 46, 160, 3, 2, 1, 5, 161, 3, 27, 1, 82, 162, 14, 48, 12, 160, 3, 2, 1, 1,
   161, 5, 48, 3, 27, 1, 115, 163, 18, 48, 16, 160, 3, 2, 1, 0, 161, 3, 2, 1, 2, 162, 4,
   4, 2, 171, 205]

/-- The same bytes with the sname leading INTEGER changed from 1 to 5
(byte index 22). -/
def c2bad : List Nat :=
  [97, 48, 48, 46, 160, 3, 2, 1, 5, 161, 3, 27, 1, 82, 162, 14, 48, 12, 160, 3, 2, 1, 5,
   161, 5, 48, 3, 27, 1, 115, 163, 18, 48, 16, 160, 3, 2, 1, 0, 161, 3, 2, 1, 2, 162, 4,
   4, 2, 171, 205]

/-- The decode of `c2good`. -/
def c2ticket : Ticket :=
  Ticket.mk (Principal.mk [82] [[115]] NameType.PRINCIPAL) (EncData.mk 0 2 [171, 205])

/-- C2 counterexample: two inputs differing only in the sname leading
INTEGER (the on-wire nameType position) do not decode to the same
result — the decoder treats that INTEGER as a component count, so the
variant whose integer (5) differs from the number of components (1)
fails instead of decoding. -/
theorem ticket_nametype_counterexample :
    c2bad = c2good.set 22 5 ∧
      Ticket.decode_from c2good = .ok c2ticket ∧
      Ticket.decode_from c2bad = .error .berValueError :=
  ⟨by decide, by decide, by decide⟩

/-- C2 (amended): whenever `Ticket::decode_from` succeeds the server
principal's NameType is `PRINCIPAL`; but the first INTEGER of sname is
used as a component count, so decoding succeeds only when it equals the
number of components: the well-formed input with the integer equal to the
component count decodes (to components from sname and NameType
`PRINCIPAL`), and the input differing only in that integer fails. -/
theorem ticket_server_name_type_principal :
    (∀ bs t, Ticket.decode_from bs = .ok t → t.server.name_type = NameType.PRINCIPAL) ∧
      Ticket.decode_from c2good = .ok c2ticket ∧
      Ticket.decode_from c2bad = .error .berValueError := by
  refine ⟨?_, by decide, by decide⟩
  intro bs t h
  unfold Ticket.decode_from at h
  rcases hpe : parseElem bs with _ | ⟨anyE, rest⟩
  · rw [hpe] at h
    exact Except.noConfusion h
  · rw [hpe] at h
    dsimp only at h
    by_cases hc1 : anyE.cls = 1 ∧ anyE.constructed = true ∧ anyE.tag = 1
    case neg =>
      rw [if_neg hc1] at h
      exact Except.noConfusion h
    case pos =>
    rw [if_pos hc1] at h
    rcases hsq : parseDerSequenceObj anyE.content with _ | seq
    · rw [hsq] at h
      exact Except.noConfusion h
    rw [hsq] at h
    dsimp only at h
    rcases seq with _ | ⟨e0, _ | ⟨e1, _ | ⟨e2, _ | ⟨e3, _ | ⟨e5, rest5⟩⟩⟩⟩⟩ <;>
      try exact Except.noConfusion h
    dsimp only at h
    by_cases h0 : e0.cls = 0
    · rw [if_pos h0] at h
      exact Except.noConfusion h
    rw [if_neg h0] at h
    rcases hv : parseDerI32 e0.content with _ | ver0
    · rw [hv] at h
      exact Except.noConfusion h
    rw [hv] at h
    dsimp only at h
    by_cases h1 : e1.cls = 0
    · rw [if_pos h1] at h
      exact Except.noConfusion h
    rw [if_neg h1] at h
    rcases hgr : parseDerGeneralString e1.content with _ | realm
    · rw [hgr] at h
      exact Except.noConfusion h
    rw [hgr] at h
    dsimp only at h
    by_cases h2c : e2.cls = 0
    · rw [if_pos h2c] at h
      exact Except.noConfusion h
    rw [if_neg h2c] at h
    rcases hpq : parseDerSequenceObj e2.content with _ | princ
    · rw [hpq] at h
      exact Except.noConfusion h
    rw [hpq] at h
    dsimp only at h
    rcases princ with _ | ⟨pe0, _ | ⟨pe1, _ | ⟨pe5, prest⟩⟩⟩ <;>
      try exact Except.noConfusion h
    dsimp only at h
    by_cases hp0 : pe0.cls = 0
    · rw [if_pos hp0] at h
      exact Except.noConfusion h
    rw [if_neg hp0] at h
    rcases hcc : parseDerI32 pe0.content with _ | component_count
    · rw [hcc] at h
      exact Except.noConfusion h
    rw [hcc] at h
    dsimp only at h
    by_cases hp1 : pe1.cls = 0
    · rw [if_pos hp1] at h
      exact Except.noConfusion h
    rw [if_neg hp1] at h
    rcases hce : parseDerSequenceObj pe1.content with _ | compElems
    · rw [hce] at h
      exact Except.noConfusion h
    rw [hce] at h
    dsimp only at h
    by_cases hcnt : component_count < 0 ∨ compElems.length ≠ component_count.toNat
    · rw [if_pos hcnt] at h
      exact Except.noConfusion h
    rw [if_neg hcnt] at h
    rcases hds : derStrComponents compElems with _ | components
    · rw [hds] at h
      exact Except.noConfusion h
    rw [hds] at h
    dsimp only at h
    by_cases h3c : e3.cls = 0
    · rw [if_pos h3c] at h
      exact Except.noConfusion h
    rw [if_neg h3c] at h
    rcases heq : parseDerSequenceObj e3.content with _ | enc
    · rw [heq] at h
      exact Except.noConfusion h
    rw [heq] at h
    dsimp only at h
    rcases enc with _ | ⟨ee0, _ | ⟨ee1, _ | ⟨ee2, _ | ⟨ee5, erest⟩⟩⟩⟩ <;>
      try exact Except.noConfusion h
    dsimp only at h
    by_cases he0 : ee0.cls = 0
    · rw [if_pos he0] at h
      exact Except.noConfusion h
    rw [if_neg he0] at h
    rcases het : parseDerI32 ee0.content with _ | enctype
    · rw [het] at h
      exact Except.noConfusion h
    rw [het] at h
    dsimp only at h
    by_cases he1 : ee1.cls = 0
    · rw [if_pos he1] at h
      exact Except.noConfusion h
    rw [if_neg he1] at h
    rcases hkv : parseDerU32 ee1.content with _ | kvno
    · rw [hkv] at h
      exact Except.noConfusion h
    rw [hkv] at h
    dsimp only at h
    by_cases he2 : ee2.cls = 0
    · rw [if_pos he2] at h
      exact Except.noConfusion h
    rw [if_neg he2] at h
    rcases hos : parseDerOctetString ee2.content with _ | ciphertext
    · rw [hos] at h
      exact Except.noConfusion h
    rw [hos] at h
    dsimp only at h
    have h2 := Except.ok.inj h
    subst h2
    rfl

theorem ticket_server_name_type_principal_witness :
    c2ticket.server.name_type = NameType.PRINCIPAL :=
  ticket_server_name_type_principal.1 c2good c2ticket
    ticket_server_name_type_principal.2.1

theorem firstIdx_of_mem (b : Nat) (l : List Nat) (h : b ∈ l) :
    ∃ i, firstIdx b l = some i := by
  induction l with
  | nil => simp at h
  | cons x xs ih =>
    by_cases hx : x = b
    · exact ⟨0, by simp [firstIdx, hx]⟩
    · have hbxs : b ∈ xs := by
        rcases List.mem_cons.mp h with h1 | h2
        · exact absurd h1.symm hx
        · exact h2
      obtain ⟨i, hi⟩ := ih hbxs
      exact ⟨i + 1, by simp [firstIdx, hx, hi]⟩

theorem firstIdx_reassemble (b : Nat) (l : List Nat) :
    ∀ i, firstIdx b l = some i → l.take i ++ b :: l.drop (i + 1) = l := by
  induction l with
  | nil =>
    intro i h
    simp [firstIdx] at h
  | cons x xs ih =>
    intro i h
    unfold firstIdx at h
    by_cases hx : x = b
    · rw [if_pos hx] at h
      have h0 : i = 0 := by simpa using h.symm
      subst h0
      simp [hx]
    · rw [if_neg hx] at h
      rcases hfi : firstIdx b xs with _ | j
      · rw [hfi] at h
        simp at h
      · rw [hfi] at h
        simp at h
        subst h
        have := ih j hfi
        simpa [List.take_succ_cons] using this

theorem firstIdx_append_sep (b : Nat) (l₁ l₂ : List Nat) (h : b ∉ l₁) :
    firstIdx b (l₁ ++ b :: l₂) = some l₁.length := by
  induction l₁ with
  | nil => simp [firstIdx]
  | cons x xs ih =>
    have hx : x ≠ b := by
      intro he
      exact h (he ▸ List.mem_cons_self x xs)
    have h2 : b ∉ xs := fun hm => h (List.mem_cons_of_mem x hm)
    simp [firstIdx, hx, ih h2]

theorem compareComponents_self (l : List (List Nat)) :
    Principal.compareComponents l l false false = .ok true := by
  induction l with
  | nil => rfl
  | cons c cs ih => simp [Principal.compareComponents, ih]

theorem not_mem_intercalate_sep (b sep : Nat) (ls : List (List Nat)) (hb : b ≠ sep)
    (h : ∀ c ∈ ls, b ∉ c) : b ∉ [sep].intercalate ls := by
  induction ls with
  | nil => simp [List.intercalate]
  | cons c cs ih =>
    cases cs with
    | nil =>
      simpa [List.intercalate] using h c (by simp)
    | cons d ds =>
      have hcc : [sep].intercalate (c :: d :: ds) = c ++ sep :: [sep].intercalate (d :: ds) := by
        simp [List.intercalate]
      rw [hcc]
      intro hmem
      rcases List.mem_append.mp hmem with h1 | h2
      · exact h c (by simp) h1
      · rcases List.mem_cons.mp h2 with h3 | h4
        · exact hb h3
        · exact ih (fun e he => h e (List.mem_cons_of_mem c he)) h4

/-- C7 (amended): (1) for every string with an explicit realm accepted by
`parse_name` under default flags, `unparse_name` returns the input
exactly; (2) reparsing `unparse_name(p, 0)` yields a principal equal to
`p` under default compare flags provided the components are nonempty and
free of `/` and `@`, the realm contains no `@` or `/`, and the realm does
not end in a backslash (the unparse hypothesis supplies UTF-8 validity). -/
theorem principal_roundtrip :
    (∀ (ctx : Context) (s : List Nat) (p : Principal),
      utf8Valid s = true → (64 : Nat) ∈ s →
      Principal.parse_name ctx s 0 = .ok p →
      Principal.unparse_name p ctx 0 = .ok s) ∧
    (∀ (ctx : Context) (p : Principal) (u : List Nat),
      p.components ≠ [] →
      (∀ c ∈ p.components, (47 : Nat) ∉ c ∧ (64 : Nat) ∉ c) →
      (64 : Nat) ∉ p.realm → (47 : Nat) ∉ p.realm → p.realm.getLast? ≠ some 92 →
      Principal.unparse_name p ctx 0 = .ok u →
      ∃ q, Principal.parse_name ctx u 0 = .ok q ∧
        Principal.compare_with_flags p ctx q 0 = .ok true) := by
  constructor
  · intro ctx s p hutf hmem hp
    obtain ⟨i, hidx⟩ := firstIdx_of_mem 64 s hmem
    have hsplit : Principal.splitRealm s 0 = (s.take i, some (s.drop (i + 1))) := by
      unfold Principal.splitRealm Principal.findRealmFrom
      simp [hidx, Principal.PARSE_ENTERPRISE]
    rcases p with ⟨pr, pc, pn⟩
    unfold Principal.parse_name at hp
    dsimp only at hp
    by_cases hback : s.getLast? = some 92
    · rw [if_pos hback] at hp
      exact absurd hp (by simp)
    rw [if_neg hback] at hp
    rw [hsplit] at hp
    by_cases h47m : (47 : Nat) ∈ s.drop (i + 1)
    · simp [Principal.PARSE_NO_REALM, Principal.PARSE_ENTERPRISE, h47m] at hp
    by_cases h64m : (64 : Nat) ∈ s.drop (i + 1)
    · simp [Principal.PARSE_NO_REALM, Principal.PARSE_ENTERPRISE, h64m] at hp
    simp [Principal.PARSE_NO_REALM, Principal.PARSE_ENTERPRISE, Principal.PARSE_IGNORE_REALM,
      h47m, h64m] at hp
    obtain ⟨h1, h2, h3⟩ := hp
    subst h1
    subst h2
    subst h3
    simp [Principal.unparse_name, Principal.UNPARSE_SHORT, Principal.UNPARSE_NO_REALM]
    rw [List.intercalate_splitOn (s.take i) 47]
    have hre : s.take i ++ 64 :: s.drop (i + 1) = s := firstIdx_reassemble 64 s i hidx
    rw [hre, hutf]
    simp
  · intro ctx p u hne hcomps h64r h47r hback hu
    rcases p with ⟨pr, pc, pn⟩
    unfold Principal.unparse_name at hu
    dsimp only at hu
    simp only [Principal.UNPARSE_SHORT, Principal.UNPARSE_NO_REALM] at hu
    simp at hu
    simp only [Principal.mk.injEq] at hne hcomps h64r h47r hback ⊢
    rcases hval : utf8Valid ([(47 : Nat)].intercalate pc ++ 64 :: pr) with _ | _
    · rw [hval] at hu
      simp at hu
    rw [hval] at hu
    simp at hu
    subst hu
    have h64j : (64 : Nat) ∉ [(47 : Nat)].intercalate pc := by
      refine not_mem_intercalate_sep 64 47 pc (by decide) ?_
      intro c hc
      exact (hcomps c hc).2
    have hidx := firstIdx_append_sep 64 ([(47 : Nat)].intercalate pc) pr h64j
    have hsplit : Principal.splitRealm ([(47 : Nat)].intercalate pc ++ 64 :: pr) 0 =
        ([(47 : Nat)].intercalate pc, some pr) := by
      unfold Principal.splitRealm Principal.findRealmFrom
      simp [hidx, Principal.PARSE_ENTERPRISE, List.drop_append]
    have hulast : ([(47 : Nat)].intercalate pc ++ 64 :: pr).getLast? ≠ some 92 := by
      cases hpr : pr with
      | nil =>
        subst hpr
        simp
      | cons a as =>
        rw [List.getLast?_append_of_ne_nil ([(47 : Nat)].intercalate pc) (by simp)]
        rw [List.getLast?_cons_cons]
        rw [← hpr]
        exact hback
    have hq : Principal.parse_name ctx ([(47 : Nat)].intercalate pc ++ 64 :: pr) 0 =
        .ok (Principal.mk pr pc (Principal.infer_principal_type pc)) := by
      unfold Principal.parse_name
      rw [if_neg hulast]
      dsimp only
      rw [hsplit]
      simp [Principal.PARSE_NO_REALM, Principal.PARSE_ENTERPRISE, Principal.PARSE_IGNORE_REALM,
        h47r, h64r]
      rw [List.splitOn_intercalate pc 47 (fun c hc => (hcomps c hc).1) hne]
      exact ⟨rfl, rfl⟩
    refine ⟨Principal.mk pr pc (Principal.infer_principal_type pc), hq, ?_⟩
    unfold Principal.compare_with_flags
    dsimp only
    simp [Principal.COMPARE_ENTERPRISE, Principal.COMPARE_IGNORE_REALM, Principal.COMPARE_UTF8,
      Principal.COMPARE_CASEFOLD, Principal.compare_realm_with_flags]
    exact compareComponents_self pc

/-- The principal whose single component "a/b" breaks the reparse
round-trip. -/
def c7p : Principal := Principal.mk [82] [[97, 47, 98]] (NameType.mk 1)

/-- C7 counterexample: for `p = a/b@R` with the slash inside one
component, `unparse` produces "a/b@R", which reparses as two components
["a","b"], and the reparsed principal compares unequal to `p` under
default flags — refuting the unrestricted second half of the claim. -/
theorem principal_roundtrip_counterexample :
    Principal.unparse_name c7p c1ctx 0 = .ok [97, 47, 98, 64, 82] ∧
      Principal.parse_name c1ctx [97, 47, 98, 64, 82] 0 =
        .ok (Principal.mk [82] [[97], [98]] NameType.PRINCIPAL) ∧
      Principal.compare_with_flags c7p c1ctx
        (Principal.mk [82] [[97], [98]] NameType.PRINCIPAL) 0 = .ok false :=
  ⟨by decide, by decide, by decide⟩

theorem principal_roundtrip_witness :
    Principal.unparse_name (Principal.mk [82] [[117]] NameType.PRINCIPAL) c1ctx 0 =
      .ok [117, 64, 82] :=
  principal_roundtrip.1 c1ctx [117, 64, 82]
    (Principal.mk [82] [[117]] NameType.PRINCIPAL) (by decide) (by decide) (by decide)
